import Mathlib

/-!
Verification of the heartwood node service core (radicle-node) against its
natural-language specification.  The definitions below are a shallow
embedding of the Rust source: `radicle-node/src/service.rs`,
`radicle-node/src/service/gossip.rs` and `radicle/src/node/routing.rs`.
Components of the repository whose source is not available here
(`service/session.rs`, `service/message.rs`, `service/io.rs`,
`service/limitter.rs`, the gossip / address / seed store implementations)
are modelled from the specification and carry a doc comment saying so.
Machine integers (`u64` timestamps) are modelled as `Nat` with explicit
wrap-around where the source can wrap.
-/

deriving instance DecidableEq for Except

namespace Heartwood

/-! ## Association-list helpers (model of `HashMap` / SQL keyed tables) -/

/-- Lookup of the first binding of key `k` in an association list. -/
def lookupA {κ β : Type} [DecidableEq κ] (k : κ) : List (κ × β) → Option β
  | [] => none
  | (k', v) :: rest => if k = k' then some v else lookupA k rest

/-- Update the first binding of key `k` (no-op when the key is absent). -/
def updateA {κ β : Type} [DecidableEq κ] (k : κ) (f : β → β) : List (κ × β) → List (κ × β)
  | [] => []
  | (k', v) :: rest => if k = k' then (k', f v) :: rest else (k', v) :: updateA k f rest

/-- Remove the first binding of key `k`. -/
def eraseA {κ β : Type} [DecidableEq κ] (k : κ) : List (κ × β) → List (κ × β)
  | [] => []
  | (k', v) :: rest => if k = k' then rest else (k', v) :: eraseA k rest

/-- Insert-or-replace: set the binding of key `k` to `v`. -/
def insertA {κ β : Type} [DecidableEq κ] (k : κ) (v : β) : List (κ × β) → List (κ × β)
  | [] => [(k, v)]
  | (k', v') :: rest => if k = k' then (k, v) :: rest else (k', v') :: insertA k v rest

theorem lookupA_updateA {κ β : Type} [DecidableEq κ] (k : κ) (f : β → β) :
    ∀ l : List (κ × β), lookupA k (updateA k f l) = (lookupA k l).map f := by
  intro l
  induction l with
  | nil => simp [lookupA, updateA]
  | cons hd tl ih =>
    by_cases h : k = hd.1
    · simp [lookupA, updateA, h]
    · simp [lookupA, updateA, h, ih]

theorem lookupA_append_none {κ β : Type} [DecidableEq κ] (k : κ) (v : β)
    (l : List (κ × β)) (h : lookupA k l = none) :
    lookupA k (l ++ [(k, v)]) = some v := by
  induction l with
  | nil => simp [lookupA]
  | cons hd tl ih =>
    by_cases hk : k = hd.1
    · simp [lookupA, hk] at h
    · simp [lookupA, hk] at h ⊢
      exact ih h

theorem lookupA_eq_none_of_not_mem {κ β : Type} [DecidableEq κ] (k : κ)
    (l : List (κ × β)) (h : k ∉ l.map Prod.fst) : lookupA k l = none := by
  induction l with
  | nil => simp [lookupA]
  | cons hd tl ih =>
    simp only [List.map_cons, List.mem_cons, not_or] at h
    simp only [lookupA, if_neg h.1]
    exact ih h.2

theorem lookupA_eraseA {κ β : Type} [DecidableEq κ] (k : κ) (l : List (κ × β))
    (hnd : (l.map Prod.fst).Nodup) : lookupA k (eraseA k l) = none := by
  induction l with
  | nil => simp [eraseA, lookupA]
  | cons hd tl ih =>
    simp only [List.map_cons, List.nodup_cons] at hnd
    by_cases hk : k = hd.1
    · simp only [eraseA, if_pos hk]
      apply lookupA_eq_none_of_not_mem
      rw [hk]
      exact hnd.1
    · simp only [eraseA, if_neg hk, lookupA, if_neg hk]
      exact ih hnd.2

/-! ## Basic identifiers and time

`Nat` is a public signing key, `Nat` (`Id` in the source) a
content-derived repository identifier and `Nat` a git object id; all are
opaque to the service core and modelled as `Nat`.  `Nat` is `u64`
milliseconds. -/


/-- Modulus of `u64` arithmetic. -/
def U64MOD : Nat := 2 ^ 64

/-- Largest `u64` value (`Nat::MAX` in the source). -/
def U64MAX : Nat := 2 ^ 64 - 1

/-- Wrapping `u64` subtraction, for values `< 2^64` (release-mode Rust `-`). -/
def u64sub (a b : Nat) : Nat := (a + U64MOD - b % U64MOD) % U64MOD

/-! Constants from `service.rs`, in milliseconds. -/

def IDLE_INTERVAL : Nat := 30000
def MAX_TIME_DELTA : Nat := 3600000
def INITIAL_SUBSCRIBE_BACKLOG_DELTA : Nat := 86400000
def MIN_RECONNECTION_DELTA : Nat := 3000
def MAX_RECONNECTION_DELTA : Nat := 3600000
def CONNECTION_RETRY_DELTA : Nat := 600000
def FETCH_TIMEOUT : Nat := 9000
def STALE_CONNECTION_TIMEOUT : Nat := 120000
def KEEP_ALIVE_DELTA : Nat := 60000

/-- Modelled from the spec: maximum inventory size imposed by message size
limits; the defining module `service/message.rs` is not available, only the
bound `inventory[ ≤INVENTORY_LIMIT]` is specified. -/
def INVENTORY_LIMIT : Nat := 2973

/-- Modelled from the spec: maximum number of ref remotes per refs
announcement (`service/message.rs` is not available). -/
def REF_REMOTE_LIMIT : Nat := 388

/-- Modelled from the spec: maximum requested pong length
(`PING_MAX_PONG_ZEROES`; `service/message.rs` is not available). -/
def MAX_PONG_ZEROES : Nat := 1024

/-! ## Routing store (embedded from `radicle/src/node/routing.rs`)

The SQL table `routing(repo, node, timestamp)` with primary key
`(repo, node)` is modelled as an association list keyed by the pair.  The
`insert` statement is

  `INSERT .. ON CONFLICT DO UPDATE SET timestamp = ?3 WHERE timestamp < ?3`

and the result is classified from `(change_count > 0, existed)`. -/

inductive InsertResult
  | notUpdated
  | timeUpdated
  | seedAdded
deriving DecidableEq, Repr

inductive RoutingError
  | unitOverflow
deriving DecidableEq, Repr

structure RoutingStore where
  entries : List ((Nat × Nat) × Nat)
deriving DecidableEq, Repr

/-- One row of the source's `insert` loop body. -/
def RoutingStore.insert_one (r : RoutingStore) (rid : Nat) (nid : Nat)
    (time : Nat) : RoutingStore × InsertResult :=
  match lookupA (rid, nid) r.entries with
  | none => (⟨r.entries ++ [((rid, nid), time)]⟩, .seedAdded)
  | some t0 =>
    if t0 < time then (⟨updateA (rid, nid) (fun _ => time) r.entries⟩, .timeUpdated)
    else (r, .notUpdated)

def RoutingStore.insert_go (r : RoutingStore) (ids : List Nat) (nid : Nat)
    (time : Nat) : RoutingStore × List (Nat × InsertResult) :=
  match ids with
  | [] => (r, [])
  | rid :: rest =>
    let (r1, res) := r.insert_one rid nid time
    let (r2, results) := r1.insert_go rest nid time
    (r2, (rid, res) :: results)

/-- `Store::insert` for `Database`: the timestamp is converted to `i64`
(`UnitOverflow` when it does not fit), then each id is inserted in one
transaction. -/
def RoutingStore.insert (r : RoutingStore) (ids : List Nat) (nid : Nat)
    (time : Nat) : Except RoutingError (RoutingStore × List (Nat × InsertResult)) :=
  if time < 2 ^ 63 then .ok (r.insert_go ids nid time) else .error .unitOverflow

/-- `Store::entry`. -/
def RoutingStore.entry (r : RoutingStore) (rid : Nat) (nid : Nat) : Option Nat :=
  lookupA (rid, nid) r.entries

/-- `Store::get_resources`: repos seeded by `nid`. -/
def RoutingStore.get_resources (r : RoutingStore) (nid : Nat) : List Nat :=
  (r.entries.filter (fun e => e.1.2 = nid)).map (fun e => e.1.1)

/-- `Store::remove`: delete the row, report whether anything was deleted. -/
def RoutingStore.remove (r : RoutingStore) (rid : Nat) (nid : Nat) :
    RoutingStore × Bool :=
  match lookupA (rid, nid) r.entries with
  | none => (r, false)
  | some _ => (⟨eraseA (rid, nid) r.entries⟩, true)

/-- `Store::get`: nodes seeding `rid`. -/
def RoutingStore.get (r : RoutingStore) (rid : Nat) : List Nat :=
  (r.entries.filter (fun e => e.1.1 = rid)).map (fun e => e.1.2)

/-- Number of rows for a given `(rid, nid)` pair. -/
def RoutingStore.rowCount (r : RoutingStore) (rid : Nat) (nid : Nat) : Nat :=
  (r.entries.filter (fun e => e.1 = (rid, nid))).length

/-! ## Addresses, features, wire messages

`Address` is a reachable endpoint; the service core only inspects the
host (for rate limiting), `is_routable`, `is_local` and `is_trusted`. -/

structure Address where
  host : Nat
  routable : Bool
  localHost : Bool
  trusted : Bool
deriving DecidableEq, Repr

def Address.is_routable (a : Address) : Bool := a.routable
def Address.is_local (a : Address) : Bool := a.localHost
def Address.is_trusted (a : Address) : Bool := a.trusted

/-- Node feature flags; the service only tests the `SEED` bit. -/
structure Features where
  seed : Bool
deriving DecidableEq, Repr

/-- Modelled from the spec: `KnownAddress` is
`(Address, source, last_success, last_attempt, banned)`
(the address-store source is not available). -/
structure KnownAddress where
  addr : Address
  lastSuccess : Option Nat
  lastAttempt : Option Nat
  banned : Bool
deriving DecidableEq, Repr

structure NodeAnnouncement where
  features : Features
  aliasName : Nat
  pow : Nat
  timestamp : Nat
  addresses : List Address
  relays : List Nat
  nonce : Nat
deriving DecidableEq, Repr

structure InventoryAnnouncement where
  inventory : List Nat
  timestamp : Nat
deriving DecidableEq, Repr

/-- A `(remote, at)` ref tip (`RefsAt` in `storage/refs.rs`). -/
structure RefsAt where
  remote : Nat
  tip : Nat
deriving DecidableEq, Repr

structure RefsAnnouncement where
  rid : Nat
  refs : List RefsAt
  timestamp : Nat
deriving DecidableEq, Repr

inductive AnnouncementMessage
  | node (n : NodeAnnouncement)
  | inventory (i : InventoryAnnouncement)
  | refs (r : RefsAnnouncement)
deriving DecidableEq, Repr

def AnnouncementMessage.timestamp : AnnouncementMessage → Nat
  | .node n => n.timestamp
  | .inventory i => i.timestamp
  | .refs r => r.timestamp

/-- A signed announcement envelope.  The cryptographic signature is outside
the service core; its validity is carried as the abstract bit `sigOk`,
which is what `Announcement::verify` reports. -/
structure Announcement where
  node : Nat
  message : AnnouncementMessage
  sigOk : Bool
deriving DecidableEq, Repr

def Announcement.verify (a : Announcement) : Bool := a.sigOk

/-- Signing (abstract): produces an envelope whose signature verifies. -/
def signAnn (signer : Nat) (m : AnnouncementMessage) : Announcement :=
  ⟨signer, m, true⟩

/-- Modelled from the spec: the subscription filter is a bloom-like set
over `Nat`s; the default (empty) filter matches everything
(`service/filter.rs` is not available).  Bloom false positives are not
modelled. -/
structure Filter where
  matchAll : Bool
  rids : List Nat
deriving DecidableEq, Repr

def Filter.default0 : Filter := ⟨true, []⟩

def Filter.insert (f : Filter) (rid : Nat) : Filter :=
  { f with rids := f.rids ++ [rid] }

def Filter.matches (f : Filter) (rid : Nat) : Bool :=
  f.matchAll || f.rids.contains rid

structure Subscribe where
  filter : Filter
  since : Nat
  till : Nat
deriving DecidableEq, Repr

inductive Info
  | refsAlreadySynced (rid : Nat) (tip : Nat)
deriving DecidableEq, Repr

structure Ping where
  ponglen : Nat
deriving DecidableEq, Repr

inductive Message
  | announcement (a : Announcement)
  | subscribe (s : Subscribe)
  | info (i : Info)
  | ping (p : Ping)
  | pong (zeroes : Nat)
deriving DecidableEq, Repr

/-! ## Session (modelled from the spec; `service/session.rs` is not
available).  State machine `Initial → Attempted → Connected →
Disconnected`; a session tracks its link direction, in-flight fetches
and connection attempts. -/

inductive Link
  | inbound
  | outbound
deriving DecidableEq, Repr

inductive PingState
  | good
  | awaitingResponse (ponglen : Nat)
deriving DecidableEq, Repr

inductive SessionState
  | initial
  | attempted
  | connected (since : Nat) (ping : PingState)
  | disconnected (since : Nat) (retryAt : Nat)
deriving DecidableEq, Repr

structure Session where
  id : Nat
  addr : Address
  link : Link
  persistent : Bool
  state : SessionState
  lastActive : Nat
  subscription : Option Subscribe
  fetchingRids : List Nat
  attempts : Nat
deriving DecidableEq, Repr

def Session.isConnected (s : Session) : Bool :=
  match s.state with
  | .connected _ _ => true
  | _ => false

def Session.isConnecting (s : Session) : Bool :=
  match s.state with
  | .initial => true
  | .attempted => true
  | _ => false

def Session.isDisconnected (s : Session) : Bool :=
  match s.state with
  | .disconnected _ _ => true
  | _ => false

/-- Modelled from the spec: per-session fetch capacity
(`limits.fetch_concurrency`). -/
def Session.isAtCapacity (s : Session) (fetchConcurrency : Nat) : Bool :=
  fetchConcurrency ≤ s.fetchingRids.length

/-- Modelled from the spec: mark `rid` fetched, freeing a fetch slot. -/
def Session.fetchDone (s : Session) (rid : Nat) : Session :=
  { s with fetchingRids := s.fetchingRids.erase rid }

/-- Modelled from the spec: a freshly dialed outbound session placeholder. -/
def Session.outbound (nid : Nat) (addr : Address) (persistent : Bool) : Session :=
  ⟨nid, addr, .outbound, persistent, .initial, 0, none, [], 0⟩

/-- Modelled from the spec: an accepted inbound session, created connected. -/
def Session.inbound (nid : Nat) (addr : Address) (persistent : Bool)
    (clock : Nat) : Session :=
  ⟨nid, addr, .inbound, persistent, .connected clock .good, clock, none, [], 0⟩

def Session.toConnected (s : Session) (clock : Nat) : Session :=
  { s with state := .connected clock .good, lastActive := clock }

/-! ## Gossip store (modelled from the spec; `service/gossip/store.rs` is
not available).  Announcements are indexed by `(announcer, variant, rid?)`
and deduplicated by "is strictly newer". -/

inductive GossipVariant
  | node
  | inventory
  | refs
deriving DecidableEq, Repr

def annKey (n : Nat) (a : Announcement) : Nat × GossipVariant × Option Nat :=
  match a.message with
  | .node _ => (n, .node, none)
  | .inventory _ => (n, .inventory, none)
  | .refs r => (n, .refs, some r.rid)

structure GossipStore where
  entries : List ((Nat × GossipVariant × Option Nat) × Announcement)
deriving DecidableEq, Repr

/-- Modelled from the spec: `announced(announcer, ann) → fresh` — store the
announcement keyed by `(announcer, variant, rid?)` and report whether it is
strictly newer than what was stored. -/
def GossipStore.announced (g : GossipStore) (n : Nat) (a : Announcement) :
    GossipStore × Bool :=
  let k := annKey n a
  match lookupA k g.entries with
  | none => (⟨g.entries ++ [(k, a)]⟩, true)
  | some old =>
    if old.message.timestamp < a.message.timestamp then
      (⟨updateA k (fun _ => a) g.entries⟩, true)
    else (g, false)

/-- Modelled from the spec: `last() → Nat?`, the newest gossip
timestamp in the store. -/
def GossipStore.last (g : GossipStore) : Option Nat :=
  (g.entries.map (fun e => e.2.message.timestamp)).max?

/-- Modelled from the spec: `filtered(filter, since, until)` returns the
stored announcements in the time window whose repo matches the filter. -/
def GossipStore.filtered (g : GossipStore) (f : Filter) (since till : Nat) :
    List Announcement :=
  (g.entries.filter (fun e =>
    let t := e.2.message.timestamp
    decide (since ≤ t) && decide (t ≤ till) &&
      (match e.2.message with
       | .node _ => true
       | .inventory i => i.inventory.any f.matches
       | .refs r => f.matches r.rid))).map (fun e => e.2)

/-! ## Address store (modelled from the spec; `radicle/node/address.rs` is
not available).  Per-node `(features, alias, work, timestamp,
[KnownAddress])` upsert-with-merge; connection events update timers and
penalty. -/

structure NodeEntry where
  features : Features
  aliasName : Nat
  pow : Nat
  timestamp : Nat
  addresses : List KnownAddress
  penalty : Nat
deriving DecidableEq, Repr

structure AddressStore where
  nodes : List (Nat × NodeEntry)
deriving DecidableEq, Repr

def AddressStore.get (st : AddressStore) (nid : Nat) : Option NodeEntry :=
  lookupA nid st.nodes

/-- Modelled from the spec: upsert with merge; the result reports whether
the entry was materially updated (new node, newer announcement timestamp,
or a previously unknown address). -/
def AddressStore.insert (st : AddressStore) (nid : Nat) (features : Features)
    (aliasName : Nat) (pow : Nat) (timestamp : Nat)
    (addrs : List KnownAddress) : AddressStore × Bool :=
  match lookupA nid st.nodes with
  | none =>
    (⟨st.nodes ++ [(nid, ⟨features, aliasName, pow, timestamp, addrs, 0⟩)]⟩, true)
  | some old =>
    if old.timestamp < timestamp then
      let merged := old.addresses ++
        addrs.filter (fun ka => ¬ (old.addresses.map KnownAddress.addr).contains ka.addr)
      (⟨updateA nid
          (fun _ => ⟨features, aliasName, pow, timestamp, merged, old.penalty⟩)
          st.nodes⟩, true)
    else (st, false)

/-- Modelled from the spec: record a successful connection at `now`. -/
def AddressStore.connectedAt (st : AddressStore) (nid : Nat) (addr : Address)
    (now : Nat) : AddressStore :=
  ⟨updateA nid (fun e =>
    { e with
      penalty := 0
      addresses := e.addresses.map (fun ka =>
        if ka.addr = addr then { ka with lastSuccess := some now } else ka) }) st.nodes⟩

/-- Modelled from the spec: record a connection attempt at `now`. -/
def AddressStore.attemptedAt (st : AddressStore) (nid : Nat) (addr : Address)
    (now : Nat) : AddressStore :=
  ⟨updateA nid (fun e =>
    { e with addresses := e.addresses.map (fun ka =>
        if ka.addr = addr then { ka with lastAttempt := some now } else ka) }) st.nodes⟩

inductive Severity
  | low
  | medium
  | high
deriving DecidableEq, Repr

def Severity.weight : Severity → Nat
  | .low => 1
  | .medium => 2
  | .high => 4

/-- Modelled from the spec: record a disconnection, increasing the node's
penalty according to the severity. -/
def AddressStore.disconnectedAt (st : AddressStore) (nid : Nat) (_addr : Address)
    (sev : Severity) : AddressStore :=
  ⟨updateA nid (fun e => { e with penalty := e.penalty + sev.weight }) st.nodes⟩

/-! ## Seed store (modelled from the spec; `radicle/node/seed.rs` is not
available).  `synced(rid, nid, oid, t) → updated`. -/

structure SeedStore where
  entries : List ((Nat × Nat) × (Nat × Nat))
deriving DecidableEq, Repr

def SeedStore.synced (st : SeedStore) (rid : Nat) (nid : Nat) (tip : Nat)
    (t : Nat) : SeedStore × Bool :=
  match lookupA (rid, nid) st.entries with
  | none => (⟨st.entries ++ [((rid, nid), (tip, t))]⟩, true)
  | some (tip0, t0) =>
    if t0 < t ∧ tip0 ≠ tip then
      (⟨updateA (rid, nid) (fun _ => (tip, t)) st.entries⟩, true)
    else (st, false)

/-! ## Rate limiter (modelled from the spec; `service/limitter.rs` is not
available).  Token bucket `{capacity, fill_rate}` keyed by host. -/

structure RateLimit where
  capacity : Nat
  fillRate : Nat
deriving DecidableEq, Repr

structure RateLimits where
  inbound : RateLimit
  outbound : RateLimit
deriving DecidableEq, Repr

structure RateLimiter where
  buckets : List (Nat × (Nat × Nat))
deriving DecidableEq, Repr

/-- Modelled from the spec: take a token from the host's bucket, refilling
by elapsed time; the result is `true` when the call is rate-limited. -/
def RateLimiter.limit (l : RateLimiter) (host : Nat) (cfg : RateLimit)
    (now : Nat) : RateLimiter × Bool :=
  match lookupA host l.buckets with
  | none =>
    if cfg.capacity = 0 then (l, true)
    else (⟨l.buckets ++ [(host, (cfg.capacity - 1, now))]⟩, false)
  | some (tokens, lastFill) =>
    let refilled := min cfg.capacity (tokens + (now - lastFill) * cfg.fillRate)
    if refilled = 0 then (⟨updateA host (fun _ => (0, now)) l.buckets⟩, true)
    else (⟨updateA host (fun _ => (refilled - 1, now)) l.buckets⟩, false)

/-! ## Policies (modelled from the spec; the policy store implementation is
not available).  Per-repository seed policy with scope and a per-node
follow set; `namespaces_for(storage, rid) → {All | Followed(set)}`. -/

inductive Policy
  | allow
  | block
deriving DecidableEq, Repr

inductive Scope
  | all
  | followed
deriving DecidableEq, Repr

structure RepoPolicy where
  policy : Policy
  scope : Scope
deriving DecidableEq, Repr

structure Policies where
  seedPolicies : List (Nat × RepoPolicy)
  follows : List Nat
  defaultPolicy : Policy
  defaultScope : Scope
deriving DecidableEq, Repr

def Policies.repo_policy (p : Policies) (rid : Nat) : RepoPolicy :=
  match lookupA rid p.seedPolicies with
  | some rp => rp
  | none => ⟨p.defaultPolicy, p.defaultScope⟩

def Policies.is_seeding (p : Policies) (rid : Nat) : Bool :=
  (p.repo_policy rid).policy = .allow

inductive Namespaces
  | all
  | followed (nodes : List Nat)
deriving DecidableEq, Repr

def Policies.namespaces_for (p : Policies) (rid : Nat) : Namespaces :=
  match (p.repo_policy rid).scope with
  | .all => .all
  | .followed => .followed p.follows

/-! ## Local storage (external collaborator, §6 of the spec): an inventory
of repositories, each with its local ref tips per remote and an identity
document carrying visibility. -/

structure Repo where
  rid : Nat
  refs : List RefsAt
  visibleTo : Option (List Nat)
deriving DecidableEq, Repr

/-- `Doc::is_visible_to`: public repositories (no allow-list) are visible
to everyone. -/
def Repo.is_visible_to (r : Repo) (nid : Nat) : Bool :=
  match r.visibleTo with
  | none => true
  | some allowed => allowed.contains nid

structure StorageModel where
  repos : List Repo
deriving DecidableEq, Repr

def StorageModel.inventory (st : StorageModel) : List Nat :=
  st.repos.map Repo.rid

def StorageModel.containsRepo (st : StorageModel) (rid : Nat) : Bool :=
  (st.inventory).contains rid

def StorageModel.repository (st : StorageModel) (rid : Nat) : Option Repo :=
  st.repos.find? (fun r => r.rid = rid)

/-- `RefsAt::new(repo, remote)`: the local tip of `remote`'s refs in the
repository, an error (`none`) when absent. -/
def refsAtNew (repo : Repo) (remote : Nat) : Option Nat :=
  (repo.refs.find? (fun r => r.remote = remote)).map RefsAt.tip

/-! ## Service configuration, errors, outbox and events -/

inductive PeerConfig
  | fixed
  | dynamic (target : Nat)
deriving DecidableEq, Repr

structure Limits where
  rate : RateLimits
  fetchConcurrency : Nat
  routingMaxSize : Nat
  routingMaxAge : Nat
  gossipMaxAge : Nat
deriving DecidableEq, Repr

structure Config where
  relay : Bool
  connect : List (Nat × Address)
  peers : PeerConfig
  limits : Limits
  policy : Policy
deriving DecidableEq, Repr

/-- `config.peer(nid)`: the address of a configured persistent peer. -/
def Config.peer (c : Config) (nid : Nat) : Option Address :=
  lookupA nid c.connect

def Config.is_persistent (c : Config) (nid : Nat) : Bool :=
  (c.peer nid).isSome

inductive SessionError
  | misbehavior
  | invalidTimestamp (t : Nat)
  | timeout
deriving DecidableEq, Repr

/-- Modelled from the spec: severity attached to a session error when the
peer is dropped. -/
def SessionError.severity : SessionError → Severity
  | .misbehavior => .high
  | .invalidTimestamp _ => .high
  | .timeout => .low

structure FetchError where
  timeout : Bool
deriving DecidableEq, Repr

inductive DisconnectReason
  | dial
  | connection
  | fetch (e : FetchError)
  | session (e : SessionError)
  | command
deriving DecidableEq, Repr

/-- Reason carried by a failed service-level fetch result (a string in the
source). -/
inductive FailReason
  | fetchFailed
  | tryFetchFailed
  | disconnected
deriving DecidableEq, Repr

/-- Service-level `FetchResult` delivered to subscribers. -/
inductive FetchResult
  | success (updated : List Nat) (namespaces : List Nat)
  | failed (reason : FailReason)
deriving DecidableEq, Repr

/-- Result reported by the fetch worker (`worker::fetch::FetchResult`). -/
structure WorkerFetchOk where
  updated : List Nat
  namespaces : List Nat
deriving DecidableEq, Repr

abbrev WorkerResult := Except FetchError WorkerFetchOk

/-- Ongoing fetch: origin node and result-channel subscribers. -/
structure FetchState where
  origin : Nat
  subscribers : List Nat
deriving DecidableEq, Repr

/-- Outbox I/O actions. -/
inductive Action
  | connect (nid : Nat) (addr : Address)
  | writeMsg (nid : Nat) (msg : Message)
  | disconnect (nid : Nat) (reason : DisconnectReason)
  | wakeup (millis : Nat)
  | fetchFrom (nid : Nat) (rid : Nat) (ns : Namespaces) (refsAt : List RefsAt)
      (timeout : Nat)
deriving DecidableEq, Repr

/-- Service events published through the emitter. -/
inductive Event
  | peerConnected (nid : Nat)
  | peerDisconnected (nid : Nat)
  | refsFetched (remote : Nat) (rid : Nat) (updated : List Nat)
  | inventoryAnnounced (nid : Nat) (inv : List Nat) (t : Nat)
  | refsAnnounced (nid : Nat) (rid : Nat) (t : Nat)
  | nodeAnnounced (nid : Nat) (t : Nat)
  | seedDiscovered (rid : Nat) (nid : Nat)
  | seedDropped (rid : Nat) (nid : Nat)
  | refsSynced (rid : Nat) (remote : Nat) (tip : Nat)
deriving DecidableEq, Repr

/-! ## The service state -/

structure Service where
  config : Config
  nid : Nat
  storage : StorageModel
  routing : RoutingStore
  addresses : AddressStore
  gossip : GossipStore
  seedsDb : SeedStore
  policies : Policies
  sessions : List (Nat × Session)
  clock : Nat
  outbox : List Action
  node : NodeAnnouncement
  fetching : List (Nat × FetchState)
  queue : List (Nat × Nat)
  limiter : RateLimiter
  filter : Filter
  events : List Event
  delivered : List (Nat × FetchResult)
deriving DecidableEq, Repr

def emit (s : Service) (e : Event) : Service :=
  { s with events := s.events ++ [e] }

/-- `Sessions::connected()`: the `(id, session)` pairs whose state is
`Connected`. -/
def connectedPairs (s : Service) : List (Nat × Session) :=
  s.sessions.filter (fun e => e.2.isConnected)

/-- `Service::filter()`: the open (match-all) filter under the `Allow`
default policy, otherwise the seeded-repos filter. -/
def serviceFilter (s : Service) : Filter :=
  if s.config.policy = .allow then Filter.default0 else s.filter

/-- `Service::is_online()`. -/
def is_online (s : Service) : Bool :=
  (connectedPairs s).any (fun e =>
    e.2.addr.is_routable && decide (s.clock - IDLE_INTERVAL ≤ e.2.lastActive))

/-! ## Gossip message builders (`service/gossip.rs`) -/

/-- `gossip::inventory`: build an inventory announcement.  When the local
inventory exceeds the message limit an error is logged and the list is
truncated (`BoundedVec::truncate`, modelled from the spec as taking the
first `INVENTORY_LIMIT` entries); the announcement is still produced. -/
def gossipInventory (timestamp : Nat) (inventory : List Nat) :
    InventoryAnnouncement :=
  ⟨inventory.take INVENTORY_LIMIT, timestamp⟩

/-! ## Fetch scheduling (`Service::try_fetch` and friends) -/

inductive TryFetchError
  | sessionNotFound (nid : Nat)
  | sessionNotConnected (nid : Nat)
  | sessionCapacityReached (nid : Nat)
deriving DecidableEq, Repr

def try_fetch (s : Service) (rid : Nat) (origin : Nat) (refs_at : List RefsAt)
    (timeout : Nat) : Service × Except TryFetchError Unit :=
  match lookupA origin s.sessions with
  | none => (s, .error (.sessionNotFound origin))
  | some session =>
    match lookupA rid s.fetching with
    | some fs =>
      if fs.origin = origin then (s, .ok ())
      else ({ s with queue := s.queue ++ [(rid, origin)] }, .ok ())
    | none =>
      if ¬ session.isConnected then (s, .error (.sessionNotConnected session.id))
      else if session.isAtCapacity s.config.limits.fetchConcurrency then
        ({ s with queue := s.queue ++ [(rid, session.id)] },
         .error (.sessionCapacityReached session.id))
      else
        let ns := s.policies.namespaces_for rid
        -- Modelled from the spec: `outbox.fetch(session, ..)` emits the
        -- transport action and takes a per-session fetch slot.
        let s := { s with
          fetching := s.fetching ++ [(rid, ⟨origin, []⟩)]
          sessions := updateA origin
            (fun ss => { ss with fetchingRids := ss.fetchingRids ++ [rid] }) s.sessions
          outbox := s.outbox ++ [.fetchFrom origin rid ns refs_at timeout] }
        (s, .ok ())

def fetchInner (s : Service) (rid : Nat) (origin : Nat) (refs_at : List RefsAt)
    (timeout : Nat) (channel : Option Nat) : Service :=
  let r := try_fetch s rid origin refs_at timeout
  match r.2 with
  | .ok _ =>
    match channel with
    | none => r.1
    | some c =>
      let attach := fun (fs : FetchState) =>
        if fs.subscribers.contains c then fs
        else { fs with subscribers := fs.subscribers ++ [c] }
      { r.1 with fetching := updateA rid attach r.1.fetching }
  | .error _ =>
    match channel with
    | none => r.1
    | some c => { r.1 with delivered := r.1.delivered ++ [(c, .failed .tryFetchFailed)] }

def fetch (s : Service) (rid : Nat) (origin : Nat) (timeout : Nat)
    (channel : Option Nat) : Service :=
  fetchInner s rid origin [] timeout channel

def fetch_refs_at (s : Service) (rid : Nat) (origin : Nat) (refs : List RefsAt)
    (timeout : Nat) : Service :=
  fetchInner s rid origin refs timeout none

def dequeue_fetch (s : Service) : Service :=
  match s.queue with
  | [] => s
  | (rid, nid) :: rest => fetch { s with queue := rest } rid nid FETCH_TIMEOUT none

/-! ## Routing synchronisation (`Service::sync_routing`) -/

structure SyncedRouting where
  added : List Nat
  removed : List Nat
  updated : List Nat
deriving DecidableEq, Repr

def SyncedRouting.isEmpty (sy : SyncedRouting) : Bool :=
  sy.added.isEmpty && sy.removed.isEmpty && sy.updated.isEmpty

/-- One step of `sync_routing`'s insert-results loop. -/
def syncStep1 (origin : Nat) (acc : Service × SyncedRouting) (pr : Nat × InsertResult) :
    Service × SyncedRouting :=
  match pr.2 with
  | .seedAdded =>
    (emit acc.1 (.seedDiscovered pr.1 origin),
     { acc.2 with added := acc.2.added ++ [pr.1] })
  | .timeUpdated => (acc.1, { acc.2 with updated := acc.2.updated ++ [pr.1] })
  | .notUpdated => acc

/-- One step of `sync_routing`'s removal loop over the node's previously
known resources. -/
def syncStep2 (inventory : List Nat) (origin : Nat) (acc : Service × SyncedRouting)
    (rid : Nat) : Service × SyncedRouting :=
  if inventory.contains rid then acc
  else
    let rem := acc.1.routing.remove rid origin
    let s2 := { acc.1 with routing := rem.1 }
    if rem.2 then
      (emit s2 (.seedDropped rid origin),
       { acc.2 with removed := acc.2.removed ++ [rid] })
    else (s2, acc.2)

def sync_routing (s : Service) (inventory : List Nat) (origin : Nat)
    (t : Nat) : Except RoutingError (Service × SyncedRouting) :=
  match s.routing.insert inventory origin t with
  | .error e => .error e
  | .ok (r, results) =>
    let s := { s with routing := r }
    let step1 := results.foldl (syncStep1 origin) (s, ⟨[], [], []⟩)
    let resources := step1.1.routing.get_resources origin
    let step2 := resources.foldl (syncStep2 inventory origin) step1
    .ok step2

/-! ## Refs status (`Service::refs_status_of`; the underlying
`RefsAnnouncement::refs_status` lives in `service/message.rs`) -/

structure RefsStatus where
  fresh : List RefsAt
  stale : List RefsAt
deriving DecidableEq, Repr

/-- Modelled from the spec: fresh vs stale refs are computed by comparing
the announced tips against local storage (`service/message.rs` is not
available); a ref already at the announced tip is stale, all others are
fresh. -/
def refs_status (st : StorageModel) (m : RefsAnnouncement) : RefsStatus :=
  match st.repository m.rid with
  | none => ⟨m.refs, []⟩
  | some repo =>
    ⟨m.refs.filter (fun r => ¬ refsAtNew repo r.remote = some r.tip),
     m.refs.filter (fun r => refsAtNew repo r.remote = some r.tip)⟩

def refs_status_of (s : Service) (m : RefsAnnouncement) (scope : Scope) : RefsStatus :=
  let refs := refs_status s.storage m
  if refs.fresh.isEmpty then refs
  else
    match scope with
    | .all => refs
    | .followed =>
      match s.policies.namespaces_for m.rid with
      | .all => refs
      | .followed fo =>
        let fo := fo.erase s.nid
        { refs with fresh := refs.fresh.filter (fun r => fo.contains r.remote) }

/-! ## Accepting announcements (`Service::handle_announcement`) -/

/-- Body of the per-rid loop of the inventory-announcement handler: when a
session with the announcer exists, add the rid to the peer's subscription
filter and, when the repo is seeded but missing locally, fetch it. -/
def inventoryPerRid (announcer : Nat) (id : Nat) (s : Service) : Service :=
  match lookupA announcer s.sessions with
  | none => s
  | some _ =>
    let s := { s with sessions := updateA announcer (fun sess =>
        match sess.subscription with
        | some sub =>
          { sess with subscription := some { sub with filter := sub.filter.insert id } }
        | none => sess) s.sessions }
    if s.policies.is_seeding id then
      if s.storage.containsRepo id then s
      else fetch s id announcer FETCH_TIMEOUT none
    else s

def handle_announcement (s : Service) (relayer : Nat) (relayer_addr : Address)
    (ann : Announcement) : Service × Except SessionError Bool :=
  if ¬ ann.verify then (s, .error .misbehavior)
  else
    let announcer := ann.node
    if announcer = s.nid then (s, .ok false)
    else
      let now := s.clock
      let timestamp := ann.message.timestamp
      let relay := s.config.relay
      -- `timestamp.saturating_sub(now) > MAX_TIME_DELTA` (`Nat` subtraction
      -- is saturating)
      if MAX_TIME_DELTA < timestamp - now then (s, .error (.invalidTimestamp timestamp))
      else
        let unknownAnnouncer :=
          match ann.message with
          | .inventory _ => (s.addresses.get announcer).isNone
          | .refs _ => (s.addresses.get announcer).isNone
          | .node _ => false
        if unknownAnnouncer then (s, .ok false)
        else
          let ga := s.gossip.announced announcer ann
          if ¬ ga.2 then ({ s with gossip := ga.1 }, .ok false)
          else
            let s := { s with gossip := ga.1 }
            match ann.message with
            | .inventory m =>
              let s := emit s (.inventoryAnnounced announcer m.inventory m.timestamp)
              match sync_routing s m.inventory announcer m.timestamp with
              | .error _ => (s, .ok false)
              | .ok (s1, synced) =>
                if synced.isEmpty then (s1, .ok false)
                else
                  let s2 := m.inventory.foldl
                    (fun st id => inventoryPerRid announcer id st) s1
                  (s2, .ok relay)
            | .refs m =>
              let s := emit s (.refsAnnounced announcer m.rid m.timestamp)
              let s :=
                match s.routing.insert [m.rid] announcer m.timestamp with
                | .error _ => s
                | .ok (r, results) =>
                  let s := { s with routing := r }
                  match results with
                  | [(_, InsertResult.seedAdded)] => emit s (.seedDiscovered m.rid relayer)
                  | _ => s
              let s :=
                match m.refs.find? (fun rr => rr.remote = s.nid) with
                | some rr =>
                  { s with seedsDb := (s.seedsDb.synced m.rid announcer rr.tip m.timestamp).1 }
                | none => s
              let rp := s.policies.repo_policy m.rid
              if rp.policy = .allow then
                let rs := refs_status_of s m rp.scope
                let s :=
                  match rs.stale.find? (fun rr => rr.remote = s.nid) with
                  | some rr => emit s (.refsSynced m.rid announcer rr.tip)
                  | none => s
                match lookupA announcer s.sessions with
                | some remote =>
                  let s :=
                    if relayer = announcer then
                      match rs.stale.find? (fun rr => rr.remote = remote.id) with
                      | some rr =>
                        { s with outbox := s.outbox ++
                            [.writeMsg remote.id (.info (.refsAlreadySynced m.rid rr.tip))] }
                      | none => s
                    else s
                  let s :=
                    if rs.fresh.isEmpty then s
                    else fetch_refs_at s m.rid remote.id rs.fresh FETCH_TIMEOUT
                  (s, .ok relay)
                | none => (s, .ok relay)
              else (s, .ok false)
            | .node na =>
              let s := emit s (.nodeAnnounced announcer na.timestamp)
              if ¬ na.features.seed then (s, .ok relay)
              else
                let addrs := (na.addresses.filter
                    (fun a => a.is_routable || relayer_addr.is_local)).map
                    (fun a => (⟨a, none, none, false⟩ : KnownAddress))
                let ins := s.addresses.insert announcer na.features na.aliasName na.pow
                    timestamp addrs
                let s := { s with addresses := ins.1 }
                if ins.2 then (s, .ok relay) else (s, .ok false)

/-! ## Message handling (`Service::handle_message`, `received_message`) -/

def handle_info (s : Service) (remote : Nat) (i : Info) : Service :=
  match i with
  | .refsAlreadySynced rid tip => emit s (.refsSynced rid remote tip)

def subInterested (sub : Subscribe) (ann : Announcement) : Bool :=
  match ann.message with
  | .node _ => true
  | .inventory i => i.inventory.any sub.filter.matches
  | .refs r => sub.filter.matches r.rid

/-- Modelled from the spec: `Outbox::relay` writes the announcement to the
given peers, restricted to those whose subscription filter matches the
announcement's repo(s) where applicable (`service/io.rs` is not
available). -/
def outboxRelay (s : Service) (ann : Announcement)
    (peers : List (Nat × Session)) : Service :=
  let targets := peers.filter (fun e =>
    match e.2.subscription with
    | some sub => subInterested sub ann
    | none => false)
  { s with outbox := s.outbox ++ targets.map (fun e => .writeMsg e.2.id (.announcement ann)) }

def rateLimitFor (c : Config) (l : Link) : RateLimit :=
  match l with
  | .outbound => c.limits.rate.outbound
  | .inbound => c.limits.rate.inbound

/-- The state of the service right after the session-activity and
rate-limiter updates at the top of `handle_message`. -/
def after_admission (s : Service) (remote : Nat) (peer : Session) : Service :=
  { s with
    sessions := insertA remote { peer with lastActive := s.clock } s.sessions
    limiter := (s.limiter.limit peer.addr.host (rateLimitFor s.config peer.link) s.clock).1 }

def handle_message (s : Service) (remote : Nat) (msg : Message) :
    Service × Except SessionError Unit :=
  match lookupA remote s.sessions with
  | none => (s, .ok ())
  | some peer0 =>
    let peer := { peer0 with lastActive := s.clock }
    let lim := s.limiter.limit peer.addr.host (rateLimitFor s.config peer.link) s.clock
    let s := { s with sessions := insertA remote peer s.sessions, limiter := lim.1 }
    if lim.2 then (s, .ok ())
    else
      match peer.state, msg with
      | .connected _ _, .announcement ann =>
        let relayer := peer.id
        let relayer_addr := peer.addr
        let announcer := ann.node
        let r := handle_announcement s relayer relayer_addr ann
        match r.2 with
        | .error e => (r.1, .error e)
        | .ok true =>
          -- Relay to connected peers, excluding the relayer and announcer.
          let relay_to := (connectedPairs r.1).filter
            (fun e => ¬ e.1 = relayer ∧ ¬ e.1 = announcer)
          (outboxRelay r.1 ann relay_to, .ok ())
        | .ok false => (r.1, .ok ())
      | .connected _ _, .subscribe sub =>
        let anns := s.gossip.filtered sub.filter sub.since sub.till
        let s := anns.foldl (fun st a =>
          if a.node = remote then st
          else { st with outbox := st.outbox ++ [.writeMsg peer.id (.announcement a)] }) s
        let setSub := fun (p : Session) => { p with subscription := some sub }
        ({ s with sessions := updateA remote setSub s.sessions }, .ok ())
      | .connected _ _, .info i => (handle_info s peer.id i, .ok ())
      | .connected _ _, .ping p =>
        if MAX_PONG_ZEROES < p.ponglen then (s, .ok ())
        else ({ s with outbox := s.outbox ++ [.writeMsg peer.id (.pong p.ponglen)] }, .ok ())
      | .connected since pst, .pong z =>
        match pst with
        | .awaitingResponse n =>
          if n = z then
            let setGood := fun (p : Session) => { p with state := .connected since .good }
            ({ s with sessions := updateA remote setGood s.sessions }, .ok ())
          else (s, .ok ())
        | .good => (s, .ok ())
      | .initial, _ => (s, .ok ())
      | .attempted, _ => (s, .ok ())
      | .disconnected _ _, _ => (s, .ok ())

def received_message (s : Service) (remote : Nat) (msg : Message) : Service :=
  let r := handle_message s remote msg
  match r.2 with
  | .error e => { r.1 with outbox := r.1.outbox ++ [.disconnect remote (.session e)] }
  | .ok _ => r.1

/-! ## Announcing (`Service::refs_announcement_for`, `announce_refs`,
`announce_inventory`, `sync_and_announce`) -/

/-- The `refs_announcement_for` loop: `RefsAt::new` for each remote (an
error anywhere aborts), pushing into a `BoundedVec` and stopping at the
limit. -/
def collectRefsAt (repo : Repo) : Nat → List Nat → Option (List RefsAt)
  | _, [] => some []
  | limit, r :: rs =>
    match refsAtNew repo r with
    | none => none
    | some o =>
      if limit = 0 then some []
      else (collectRefsAt repo (limit - 1) rs).map (fun l => ⟨r, o⟩ :: l)

def refs_announcement_for (s : Service) (rid : Nat) (remotes : List Nat) :
    Option (Announcement × List RefsAt) :=
  match s.storage.repository rid with
  | none => none
  | some repo =>
    match collectRefsAt repo REF_REMOTE_LIMIT remotes with
    | none => none
    | some refs => some (signAnn s.nid (.refs ⟨rid, refs, s.clock⟩), refs)

/-- Modelled from the spec: `Outbox::announce` stores the announcement in
the local gossip store and writes it to the given peers
(`service/io.rs` is not available). -/
def outboxAnnounce (s : Service) (ann : Announcement)
    (peers : List (Nat × Session)) : Service :=
  let ga := s.gossip.announced ann.node ann
  { s with
    gossip := ga.1
    outbox := s.outbox ++ peers.map (fun e => .writeMsg e.2.id (.announcement ann)) }

/-- `Service::announce_refs`: errors short-circuit before any mutation and
are reported to the caller as `none`. -/
def announce_refs (s : Service) (rid : Nat) (remotes : List Nat) :
    Service × Option (List RefsAt) :=
  match s.storage.repository rid with
  | none => (s, none)
  | some repo =>
    match refs_announcement_for s rid remotes with
    | none => (s, none)
    | some (ann, refs) =>
      let s :=
        match refs.find? (fun r => r.remote = ann.node) with
        | some r =>
          { s with seedsDb := (s.seedsDb.synced rid ann.node r.tip ann.message.timestamp).1 }
        | none => s
      let peers := (connectedPairs s).filter (fun e => repo.is_visible_to e.2.id)
      (outboxAnnounce s ann peers, some refs)

def announce_inventory (s : Service) (inventory : List Nat) : Service :=
  let msg := signAnn s.nid (.inventory (gossipInventory s.clock inventory))
  outboxAnnounce s msg (connectedPairs s)

def sync_and_announce (s : Service) : Service :=
  match sync_routing s s.storage.inventory s.nid s.clock with
  | .error _ => s
  | .ok (s1, synced) =>
    if 0 < synced.added.length + synced.removed.length then
      announce_inventory s1 s1.storage.inventory
    else s1

/-! ## Fetch completion (`Service::fetched`) -/

/-- The service-level result derived from a worker result. -/
def serviceResult (res : WorkerResult) : FetchResult :=
  match res with
  | .ok okr => .success okr.updated okr.namespaces
  | .error _ => .failed .fetchFailed

/-- The refs-broadcast step at the end of `fetched`: refs are only
announced when the fetch was not user-requested (no subscriber existed)
and the fetch updated refs. -/
def fetchedAnnounce (s : Service) (rid : Nat) (subs : List Nat)
    (result : FetchResult) : Service :=
  if subs.isEmpty then
    match result with
    | .success updated ns => if updated.isEmpty then s else (announce_refs s rid ns).1
    | .failed _ => s
  else s

def fetched (s : Service) (rid : Nat) (remote : Nat) (res : WorkerResult) :
    Service :=
  let s :=
    match res with
    | .ok okr => emit s (.refsFetched remote rid okr.updated)
    | .error err =>
      -- only a timeout disconnects the remote
      if err.timeout then { s with outbox := s.outbox ++ [.disconnect remote (.fetch err)] }
      else s
  let result := serviceResult res
  match lookupA rid s.fetching with
  | none => s
  | some fetchingSt =>
    -- In release builds the origin mismatch is only a debug assertion;
    -- processing continues regardless.
    let s := { s with fetching := eraseA rid s.fetching }
    let s := { s with sessions := updateA remote (fun ss => ss.fetchDone rid) s.sessions }
    let s := { s with
      delivered := s.delivered ++ fetchingSt.subscribers.map (fun c => (c, result)) }
    let s := fetchedAnnounce s rid fetchingSt.subscribers result
    let s := sync_and_announce s
    dequeue_fetch s

/-! ## Connection maintenance (`Service::connect`, `available_peers`,
`maintain_connections`) and disconnection -/

def connect (s : Service) (nid : Nat) (addr : Address) : Service × Bool :=
  if (lookupA nid s.sessions).isSome then (s, false)
  else if nid = s.nid then (s, false)
  else
    let persistent := s.config.is_persistent nid
    let s := { s with addresses := s.addresses.attemptedAt nid addr s.clock }
    let s := { s with
      sessions := s.sessions ++ [(nid, Session.outbound nid addr persistent)]
      outbox := s.outbox ++ [.connect nid addr] }
    (s, true)

structure PeerCandidate where
  nid : Nat
  addresses : List KnownAddress
  penalty : Nat
deriving DecidableEq, Repr

/-- Modelled from the spec: penalty threshold beyond which a peer is not
dialed automatically (`Penalty::is_threshold_reached`). -/
def PENALTY_THRESHOLD : Nat := 32

def insertByPenalty (p : PeerCandidate) : List PeerCandidate → List PeerCandidate
  | [] => [p]
  | q :: rest => if p.penalty ≤ q.penalty then p :: q :: rest else q :: insertByPenalty p rest

def sortByPenalty : List PeerCandidate → List PeerCandidate
  | [] => []
  | p :: rest => insertByPenalty p (sortByPenalty rest)

def available_peers (s : Service) : List PeerCandidate :=
  let cands := s.addresses.nodes.filterMap (fun e =>
    if PENALTY_THRESHOLD ≤ e.2.penalty then none
    else if (lookupA e.1 s.sessions).isSome then none
    else if e.1 = s.nid then none
    else
      let addrs := e.2.addresses.filter (fun ka => ¬ ka.banned)
      if addrs.isEmpty then none else some ⟨e.1, addrs, e.2.penalty⟩)
  sortByPenalty cands

def goodCandidateAddr (now : Nat) (ka : KnownAddress) : Bool :=
  match ka.lastSuccess, ka.lastAttempt with
  | some success, attempt => attempt.getD 0 ≤ success
  | none, some attempt => CONNECTION_RETRY_DELTA ≤ now - attempt
  | none, none => true

def maintain_connections (s : Service) : Service :=
  match s.config.peers with
  | .fixed => s
  | .dynamic target =>
    let outbound := (s.sessions.filter (fun e =>
      decide (e.2.link = Link.outbound) && (e.2.isConnected || e.2.isConnecting))).length
    let wanted := target - outbound
    if wanted = 0 then s
    else
      let picks := (available_peers s).filterMap (fun p =>
        (p.addresses.find? (goodCandidateAddr s.clock)).map (fun ka => (p.nid, ka)))
      (picks.take wanted).foldl (fun st pr => (connect st pr.1 pr.2.addr).1) s

def natClamp (x lo hi : Nat) : Nat := if x < lo then lo else if hi < x then hi else x

/-- The reconnection delay of `Service::disconnected`:
`LocalDuration::from_secs(2u64.saturating_pow(attempts))
  .clamp(MIN_RECONNECTION_DELTA, MAX_RECONNECTION_DELTA)`, in ms. -/
def reconnectDelay (attempts : Nat) : Nat :=
  natClamp (min (2 ^ attempts) U64MAX * 1000) MIN_RECONNECTION_DELTA MAX_RECONNECTION_DELTA

def disconnected (s : Service) (remote : Nat) (reason : DisconnectReason) : Service :=
  let since := s.clock
  let s := emit s (.peerDisconnected remote)
  match lookupA remote s.sessions with
  | none => s
  | some session =>
    let link := session.link
    let addr := session.addr
    -- remove and fail any pending fetches from this remote
    let failedEntries := s.fetching.filter (fun e => e.2.origin = remote)
    let s := { s with
      fetching := s.fetching.filter (fun e => ¬ e.2.origin = remote)
      delivered := s.delivered ++ failedEntries.flatMap
        (fun e => e.2.subscribers.map (fun c => (c, FetchResult.failed .disconnected))) }
    let s :=
      if (s.config.peer remote).isSome then
        let delay := reconnectDelay session.attempts
        let toDisc := fun (ss : Session) =>
          { ss with state := SessionState.disconnected since (since + delay) }
        let s := { s with sessions := updateA remote toDisc s.sessions }
        { s with outbox := s.outbox ++ [.wakeup delay] }
      else
        let s := { s with sessions := eraseA remote s.sessions }
        let severity :=
          match reason with
          | .dial => if is_online s then Severity.medium else Severity.low
          | .fetch _ => if is_online s then Severity.medium else Severity.low
          | .connection => if is_online s then Severity.medium else Severity.low
          | .session e => e.severity
          | .command => Severity.low
        let s := { s with addresses := s.addresses.disconnectedAt remote addr severity }
        if link = Link.outbound then maintain_connections s else s
    -- a slot may have been freed: try to dequeue another fetch
    dequeue_fetch s

/-! ## Initial messages on connection (`Service::initial`, `connected`) -/

/-- The `since` bound of the initial subscription: the last gossip
timestamp minus `MAX_TIME_DELTA` when the gossip store is non-empty,
otherwise the current time minus `INITIAL_SUBSCRIBE_BACKLOG_DELTA`
(wrapping `u64` subtraction, as in release-mode Rust). -/
def initialSince (s : Service) : Nat :=
  match s.gossip.last with
  | some last => u64sub last MAX_TIME_DELTA
  | none => u64sub s.clock INITIAL_SUBSCRIBE_BACKLOG_DELTA

/-- `Service::initial`: the link direction is accepted but ignored
(`_link` in the source); the subscription is included for both inbound and
outbound connections. -/
def initial (s : Service) (_link : Link) : List Message :=
  let filter := serviceFilter s
  let inventory := s.storage.inventory
  [ Message.announcement (signAnn s.nid (.node s.node)),
    Message.announcement (signAnn s.nid (.inventory (gossipInventory s.clock inventory))),
    Message.subscribe ⟨filter, initialSince s, U64MAX⟩ ]

def connected (s : Service) (remote : Nat) (addr : Address) (link : Link) : Service :=
  let s := emit s (.peerConnected remote)
  let msgs := initial s link
  let now := s.clock
  match link with
  | .outbound =>
    match lookupA remote s.sessions with
    | some peer =>
      let s := { s with sessions := updateA remote (fun p => p.toConnected now) s.sessions }
      let s := { s with outbox := s.outbox ++ msgs.map (fun m => Action.writeMsg remote m) }
      { s with addresses := s.addresses.connectedAt remote peer.addr now }
    | none => s
  | .inbound =>
    match lookupA remote s.sessions with
    | some _ => s
    | none =>
      let sess := Session.inbound remote addr (s.config.is_persistent remote) now
      { s with
        sessions := s.sessions ++ [(remote, sess)]
        outbox := s.outbox ++ msgs.map (fun m => Action.writeMsg remote m) }

/-! ## Auxiliary lemmas -/

theorem filter_key_eq_nil {κ β : Type} [DecidableEq κ] (k : κ) (l : List (κ × β))
    (h : lookupA k l = none) : l.filter (fun e => e.1 = k) = [] := by
  induction l with
  | nil => rfl
  | cons hd tl ih =>
    simp only [lookupA] at h
    by_cases hk : k = hd.1
    · simp [hk] at h
    · have hne : ¬ hd.1 = k := fun he => hk he.symm
      rw [if_neg hk] at h
      simpa [List.filter, hne] using ih h

theorem length_filter_key_updateA {κ β : Type} [DecidableEq κ] (k : κ) (f : β → β)
    (l : List (κ × β)) :
    ((updateA k f l).filter (fun e => e.1 = k)).length =
      (l.filter (fun e => e.1 = k)).length := by
  induction l with
  | nil => rfl
  | cons hd tl ih =>
    by_cases hk : k = hd.1
    · simp [updateA, if_pos hk, List.filter, hk.symm]
    · have hne : ¬ hd.1 = k := fun he => hk he.symm
      by_cases hmem : hd.1 = k
      · exact absurd hmem hne
      · simp [updateA, if_neg hk, List.filter, hne, ih]

/-! ## Claim theorems -/

/-- C2: inserting `(rid, nid)` into the routing store with timestamp `t2`
after inserting the same pair with `t1` returns `NotUpdated` and keeps the
stored timestamp at `t1` when `t2 ≤ t1`, returns `TimeUpdated` and stores
`t2` when `t2 > t1`, and in all cases the pair occupies exactly one row. -/
theorem C2_routing_insert_monotone (tbl : RoutingStore) (rid : Nat) (nid : Nat)
    (t1 t2 : Nat)
    (hfresh : tbl.entry rid nid = none)
    (ht1 : t1 < 2 ^ 63) (ht2 : t2 < 2 ^ 63) :
    ∃ tbl1,
      tbl.insert [rid] nid t1 = .ok (tbl1, [(rid, .seedAdded)]) ∧
      tbl1.entry rid nid = some t1 ∧
      tbl1.rowCount rid nid = 1 ∧
      (t2 ≤ t1 → tbl1.insert [rid] nid t2 = .ok (tbl1, [(rid, .notUpdated)])) ∧
      (t1 < t2 → ∃ tbl2,
        tbl1.insert [rid] nid t2 = .ok (tbl2, [(rid, .timeUpdated)]) ∧
        tbl2.entry rid nid = some t2 ∧
        tbl2.rowCount rid nid = 1) := by
  have hfresh' : lookupA (rid, nid) tbl.entries = none := hfresh
  have hpow : (2 : Nat) ^ 63 = 9223372036854775808 := by norm_num
  have ht1' : t1 < 9223372036854775808 := by rw [hpow] at ht1; exact ht1
  have ht2' : t2 < 9223372036854775808 := by rw [hpow] at ht2; exact ht2
  refine ⟨⟨tbl.entries ++ [((rid, nid), t1)]⟩, ?_, ?_, ?_, ?_, ?_⟩
  · simp [RoutingStore.insert, ht1', RoutingStore.insert_go,
      RoutingStore.insert_one, hfresh']
  · exact lookupA_append_none _ _ _ hfresh'
  · show (((tbl.entries ++ [((rid, nid), t1)]).filter (fun e => e.1 = (rid, nid)))).length = 1
    rw [List.filter_append, filter_key_eq_nil _ _ hfresh']
    simp
  · intro hle
    have hlook : lookupA (rid, nid) (tbl.entries ++ [((rid, nid), t1)]) = some t1 :=
      lookupA_append_none _ _ _ hfresh'
    have hnlt : ¬ t1 < t2 := by omega
    simp [RoutingStore.insert, ht2', RoutingStore.insert_go,
      RoutingStore.insert_one, hlook, hnlt]
  · intro hlt
    have hlook : lookupA (rid, nid) (tbl.entries ++ [((rid, nid), t1)]) = some t1 :=
      lookupA_append_none _ _ _ hfresh'
    refine ⟨⟨updateA (rid, nid) (fun _ => t2) (tbl.entries ++ [((rid, nid), t1)])⟩,
      ?_, ?_, ?_⟩
    · simp [RoutingStore.insert, ht2', RoutingStore.insert_go,
        RoutingStore.insert_one, hlook, hlt]
    · show lookupA (rid, nid) (updateA (rid, nid) _ _) = some t2
      rw [lookupA_updateA, hlook]
      rfl
    · show ((updateA (rid, nid) _ _).filter (fun e => e.1 = (rid, nid))).length = 1
      rw [length_filter_key_updateA, List.filter_append,
        filter_key_eq_nil _ _ hfresh']
      simp

/-- Witness for C2 on a concrete store and timestamps. -/
theorem C2_routing_insert_monotone_witness :
    ∃ tbl1,
      RoutingStore.insert ⟨[]⟩ [7] 3 100 = .ok (tbl1, [(7, .seedAdded)]) ∧
      tbl1.entry 7 3 = some 100 ∧
      tbl1.rowCount 7 3 = 1 ∧
      (50 ≤ 100 → tbl1.insert [7] 3 50 = .ok (tbl1, [(7, .notUpdated)])) ∧
      (100 < 50 → ∃ tbl2,
        tbl1.insert [7] 3 50 = .ok (tbl2, [(7, .timeUpdated)]) ∧
        tbl2.entry 7 3 = some 50 ∧
        tbl2.rowCount 7 3 = 1) :=
  C2_routing_insert_monotone ⟨[]⟩ 7 3 100 50 (by decide) (by norm_num) (by norm_num)

/-- The reconnect-delay formula of `Service::disconnected` equals the
claimed min-with-floor form for every attempt count. -/
theorem reconnectDelay_eq_min_floor (a : Nat) : reconnectDelay a =
    max (min (2 ^ a * 1000) MAX_RECONNECTION_DELTA) MIN_RECONNECTION_DELTA := by
  unfold reconnectDelay natClamp
  simp only [U64MAX, MIN_RECONNECTION_DELTA, MAX_RECONNECTION_DELTA]
  generalize (2 : Nat) ^ a = x
  simp only [Nat.max_def, Nat.min_def]
  norm_num
  split_ifs <;> omega

theorem reconnectDelay_bounds (a : Nat) :
    MIN_RECONNECTION_DELTA ≤ reconnectDelay a ∧
    reconnectDelay a ≤ MAX_RECONNECTION_DELTA := by
  rw [reconnectDelay_eq_min_floor a]
  simp only [MIN_RECONNECTION_DELTA, MAX_RECONNECTION_DELTA, Nat.max_def, Nat.min_def]
  generalize (2 : Nat) ^ a * 1000 = x
  constructor <;> (split_ifs <;> omega)

def addr0 : Address := ⟨0, true, false, false⟩

def sessW9 : Session := ⟨1, addr0, .outbound, true, .connected 0 .good, 0, none, [], 3⟩

def svcW9 : Service where
  config := ⟨true, [(1, addr0)], .fixed, ⟨⟨⟨10, 1⟩, ⟨10, 1⟩⟩, 2, 1000, 1000, 1000⟩, .allow⟩
  nid := 99
  storage := ⟨[]⟩
  routing := ⟨[]⟩
  addresses := ⟨[]⟩
  gossip := ⟨[]⟩
  seedsDb := ⟨[]⟩
  policies := ⟨[], [], .allow, .all⟩
  sessions := [(1, sessW9)]
  clock := 50000
  outbox := []
  node := ⟨⟨true⟩, 0, 0, 0, [], [], 0⟩
  fetching := []
  queue := []
  limiter := ⟨[]⟩
  filter := ⟨false, []⟩
  events := []
  delivered := []

/-- C10: building an inventory announcement from a local inventory longer
than `INVENTORY_LIMIT` silently truncates it to the first
`INVENTORY_LIMIT` entries; the announcement is still produced with the
requested timestamp. -/
theorem C10_inventory_truncation (ts : Nat) (inv : List Nat)
    (h : INVENTORY_LIMIT < inv.length) :
    (gossipInventory ts inv).inventory = inv.take INVENTORY_LIMIT ∧
    (gossipInventory ts inv).inventory.length = INVENTORY_LIMIT ∧
    (gossipInventory ts inv).timestamp = ts := by
  refine ⟨rfl, ?_, rfl⟩
  simp only [gossipInventory, List.length_take]
  omega

/-- Witness for C10 on a concrete over-long inventory. -/
theorem C10_inventory_truncation_witness :
    (gossipInventory 5 (List.replicate 2974 (0 : Nat))).inventory =
      (List.replicate 2974 (0 : Nat)).take INVENTORY_LIMIT ∧
    (gossipInventory 5 (List.replicate 2974 (0 : Nat))).inventory.length =
      INVENTORY_LIMIT ∧
    (gossipInventory 5 (List.replicate 2974 (0 : Nat))).timestamp = 5 :=
  C10_inventory_truncation 5 _ (by rw [List.length_replicate]; norm_num [INVENTORY_LIMIT])

/-- A minimal service used to instantiate witnesses. -/
def svcBase : Service where
  config := ⟨true, [], .fixed, ⟨⟨⟨10, 1⟩, ⟨10, 1⟩⟩, 2, 1000, 1000, 1000⟩, .allow⟩
  nid := 99
  storage := ⟨[]⟩
  routing := ⟨[]⟩
  addresses := ⟨[]⟩
  gossip := ⟨[]⟩
  seedsDb := ⟨[]⟩
  policies := ⟨[], [], .allow, .all⟩
  sessions := []
  clock := 1000
  outbox := []
  node := ⟨⟨true⟩, 0, 0, 0, [], [], 0⟩
  fetching := []
  queue := []
  limiter := ⟨[]⟩
  filter := ⟨false, []⟩
  events := []
  delivered := []

/-- C5: a verified, timely inventory or refs announcement whose announcer
has no node announcement in the address store is silently dropped:
`handle_announcement` returns `Ok(false)` (no relay, no session-fatal
error) and the service state — in particular every store — is untouched. -/
theorem C5_unknown_announcer_dropped (s : Service) (relayer : Nat) (addr : Address)
    (ann : Announcement)
    (hsig : ann.verify = true)
    (hself : ¬ ann.node = s.nid)
    (hts : ann.message.timestamp - s.clock ≤ MAX_TIME_DELTA)
    (hvar : (match ann.message with
      | .inventory _ => true
      | .refs _ => true
      | .node _ => false) = true)
    (hunknown : s.addresses.get ann.node = none) :
    handle_announcement s relayer addr ann = (s, .ok false) := by
  have hnotlt : ¬ MAX_TIME_DELTA < ann.message.timestamp - s.clock := Nat.not_lt.mpr hts
  obtain ⟨annNode, msg, sigOk⟩ := ann
  simp only [Announcement.verify] at hsig
  subst hsig
  simp only [Announcement.verify] at hnotlt hunknown hself ⊢
  cases msg with
  | node n => simp at hvar
  | inventory i =>
    simp [handle_announcement, Announcement.verify, hself, hnotlt, hunknown]
  | refs r =>
    simp [handle_announcement, Announcement.verify, hself, hnotlt, hunknown]

/-- Witness for C5 on a concrete inventory announcement from an unknown
announcer. -/
theorem C5_unknown_announcer_dropped_witness :
    handle_announcement svcBase 3 addr0 ⟨7, .inventory ⟨[11], 1000⟩, true⟩ =
      (svcBase, .ok false) :=
  C5_unknown_announcer_dropped svcBase 3 addr0 _ (by decide) (by decide) (by decide)
    (by decide) (by decide)

/-- C6 (amended): when `fetched(rid, remote, result)` finds no `FetchState`
for `rid`, it warns and returns: no result is delivered, no session or
store is updated, nothing is announced (only the timeout-disconnect of the
early result processing may be queued).  The claim's other arm is false:
a `from` mismatch is only a debug assertion and does not cause an early
return (see the counterexample). -/
theorem C6_fetched_unknown_rid (s : Service) (rid remote : Nat) (res : WorkerResult)
    (habsent : lookupA rid s.fetching = none) :
    (fetched s rid remote res).sessions = s.sessions ∧
    (fetched s rid remote res).fetching = s.fetching ∧
    (fetched s rid remote res).delivered = s.delivered ∧
    (fetched s rid remote res).gossip = s.gossip ∧
    (fetched s rid remote res).routing = s.routing ∧
    (fetched s rid remote res).seedsDb = s.seedsDb ∧
    (fetched s rid remote res).queue = s.queue ∧
    ((fetched s rid remote res).outbox = s.outbox ∨
      ∃ e, res = .error e ∧ e.timeout = true ∧
        (fetched s rid remote res).outbox = s.outbox ++ [.disconnect remote (.fetch e)]) := by
  cases res with
  | ok okr =>
    refine ⟨?_, ?_, ?_, ?_, ?_, ?_, ?_, Or.inl ?_⟩ <;>
      simp [fetched, emit, habsent]
  | error e =>
    cases ht : e.timeout with
    | true =>
      refine ⟨?_, ?_, ?_, ?_, ?_, ?_, ?_, Or.inr ⟨e, rfl, ht, ?_⟩⟩ <;>
        simp [fetched, emit, habsent, ht]
    | false =>
      refine ⟨?_, ?_, ?_, ?_, ?_, ?_, ?_, Or.inl ?_⟩ <;>
        simp [fetched, emit, habsent, ht]

/-- Witness for C6's amended statement: an unknown rid is ignored. -/
theorem C6_fetched_unknown_rid_witness :
    (fetched svcBase 5 2 (.ok ⟨[], []⟩)).sessions = svcBase.sessions ∧
    (fetched svcBase 5 2 (.ok ⟨[], []⟩)).delivered = svcBase.delivered := by
  obtain ⟨h1, _, h3, _⟩ := C6_fetched_unknown_rid svcBase 5 2 (.ok ⟨[], []⟩) (by decide)
  exact ⟨h1, h3⟩

/-- Service with an in-flight fetch of repo 5 from node 1 with one
subscriber channel 9. -/
def svcC6 : Service :=
  { svcBase with fetching := [(5, ⟨1, [9]⟩)] }

/-- Counterexample to C6 as stated: the `FetchState` for rid 5 records
node 1 as origin, yet `fetched` with mismatching remote 2 still delivers
the result to the subscriber instead of warning and returning. -/
theorem C6_from_mismatch_counterexample :
    lookupA 5 svcC6.fetching = some ⟨1, [9]⟩ ∧
    ¬ (1 : Nat) = 2 ∧
    (fetched svcC6 5 2 (.ok ⟨[], []⟩)).delivered = [(9, FetchResult.success [] [])] ∧
    svcC6.delivered = [] := by decide

/-- C7 (amended): the initial `Subscribe` of every connection carries
`until = Timestamp::MAX` and
`since = last_gossip_timestamp − MAX_TIME_DELTA` when the gossip store is
non-empty, falling back to `now − INITIAL_SUBSCRIBE_BACKLOG_DELTA` only
when it is empty; no minimum of the two quantities is taken. -/
theorem C7_initial_subscribe_since (s : Service) (link : Link) :
    (initial s link).getLast? = some (Message.subscribe
      ⟨serviceFilter s,
        (match s.gossip.last with
         | some last => u64sub last MAX_TIME_DELTA
         | none => u64sub s.clock INITIAL_SUBSCRIBE_BACKLOG_DELTA),
        U64MAX⟩) := by
  simp [initial, initialSince]

/-- The `since` field of the first subscribe message of a message list. -/
def subscribeSinceOf (msgs : List Message) : Option Nat :=
  msgs.findSome? (fun m =>
    match m with
    | .subscribe sub => some sub.since
    | _ => none)

/-- Service whose gossip store has a newest entry at t = 100000000 and
whose clock stands one millisecond later. -/
def svcC7 : Service :=
  { svcBase with
    gossip := ⟨[((5, .node, none), signAnn 5 (.node ⟨⟨true⟩, 0, 0, 100000000, [], [], 0⟩))]⟩
    clock := 100000001 }

/-- Counterexample to C7 as stated: with `last = 100000000` and
`now = 100000001` the code subscribes since
`last − MAX_TIME_DELTA = 96400000`, not the claimed
`min(last − MAX_TIME_DELTA, now − INITIAL_SUBSCRIBE_BACKLOG_DELTA) =
13600001`. -/
theorem C7_initial_subscribe_counterexample :
    subscribeSinceOf (initial svcC7 .outbound) = some 96400000 ∧
    min (100000000 - MAX_TIME_DELTA) (100000001 - INITIAL_SUBSCRIBE_BACKLOG_DELTA) =
      13600001 ∧
    ¬ (96400000 : Nat) = 13600001 := by
  refine ⟨?_, by decide, by decide⟩
  decide

/-- C8 (amended): on `connected`, the node announcement, the inventory
announcement and the `Subscribe` are all written to the peer for both
link directions (outbound onto the existing session, inbound when no
session exists yet); the outbound-only restriction on `Subscribe` is a
TODO in the source and not implemented. -/
theorem C8_connected_initial_messages (s : Service) (remote : Nat) (addr : Address) :
    (∀ peer, lookupA remote s.sessions = some peer →
      (connected s remote addr .outbound).outbox =
        s.outbox ++ (initial s .outbound).map (Action.writeMsg remote)) ∧
    (lookupA remote s.sessions = none →
      (connected s remote addr .inbound).outbox =
        s.outbox ++ (initial s .inbound).map (Action.writeMsg remote)) ∧
    (∀ link, initial s link =
      [ Message.announcement (signAnn s.nid (.node s.node)),
        Message.announcement
          (signAnn s.nid (.inventory (gossipInventory s.clock s.storage.inventory))),
        Message.subscribe ⟨serviceFilter s, initialSince s, U64MAX⟩ ]) := by
  refine ⟨?_, ?_, fun link => rfl⟩
  · intro peer hpeer
    have hinit : initial { s with events := s.events ++ [Event.peerConnected remote] }
        .outbound = initial s .outbound := rfl
    simp only [connected, emit, hpeer, hinit]
  · intro hnone
    have hinit : initial { s with events := s.events ++ [Event.peerConnected remote] }
        .inbound = initial s .inbound := rfl
    simp only [connected, emit, hnone, hinit]

/-- Service with one outbound session to node 1 in the `Initial` state. -/
def svcW8 : Service :=
  { svcBase with sessions := [(1, Session.outbound 1 addr0 false)] }

/-- Witness for C8's amended statement at concrete outbound and inbound
connection events. -/
theorem C8_connected_initial_messages_witness :
    (connected svcW8 1 addr0 .outbound).outbox =
      svcW8.outbox ++ (initial svcW8 .outbound).map (Action.writeMsg 1) ∧
    (connected svcW8 2 addr0 .inbound).outbox =
      svcW8.outbox ++ (initial svcW8 .inbound).map (Action.writeMsg 2) := by
  obtain ⟨h1, _, _⟩ := C8_connected_initial_messages svcW8 1 addr0
  obtain ⟨_, h2, _⟩ := C8_connected_initial_messages svcW8 2 addr0
  exact ⟨h1 (Session.outbound 1 addr0 false) (by decide), h2 (by decide)⟩

/-- Does the action list contain a `Subscribe` written to `nid`? -/
def hasSubscribeWrite (acts : List Action) (nid : Nat) : Bool :=
  acts.any (fun a =>
    match a with
    | .writeMsg n (.subscribe _) => n = nid
    | _ => false)

/-- Counterexample to C8 as stated: an inbound `connected` event also
writes a `Subscribe` to the peer. -/
theorem C8_inbound_subscribe_counterexample :
    hasSubscribeWrite ((connected svcW8 2 addr0 .inbound).outbox) 2 = true := by
  decide

/-- The four persistent stores agree between two service states. -/
def storesUnchanged (s s' : Service) : Prop :=
  s'.gossip = s.gossip ∧ s'.routing = s.routing ∧
  s'.addresses = s.addresses ∧ s'.seedsDb = s.seedsDb

/-- C1: an announcement whose signature does not verify makes
`handle_announcement` return the session-fatal `Misbehavior` error before
touching any store, and `received_message` from a connected, not
rate-limited peer leaves the gossip, routing, address and seed stores
unchanged and enqueues a disconnect of that peer into the outbox. -/
theorem C1_bad_signature_disconnect (s : Service) (remote : Nat) (peer : Session)
    (ann : Announcement)
    (hsess : lookupA remote s.sessions = some peer)
    (hconn : peer.isConnected = true)
    (hlim : (s.limiter.limit peer.addr.host (rateLimitFor s.config peer.link) s.clock).2
      = false)
    (hsig : ann.verify = false) :
    (handle_announcement s remote peer.addr ann).2 = .error .misbehavior ∧
    storesUnchanged s (received_message s remote (.announcement ann)) ∧
    (received_message s remote (.announcement ann)).outbox =
      s.outbox ++ [.disconnect remote (.session .misbehavior)] := by
  have h1 : ∀ (t : Service) (relayer : Nat) (ra : Address),
      handle_announcement t relayer ra ann = (t, .error .misbehavior) := by
    intro t relayer ra
    simp [handle_announcement, hsig]
  obtain ⟨since, ping, hstate⟩ : ∃ a b, peer.state = SessionState.connected a b := by
    cases h : peer.state with
    | connected a b => exact ⟨a, b, rfl⟩
    | initial => simp [Session.isConnected, h] at hconn
    | attempted => simp [Session.isConnected, h] at hconn
    | disconnected a b => simp [Session.isConnected, h] at hconn
  have hmsg : handle_message s remote (.announcement ann) =
      (after_admission s remote peer, .error .misbehavior) := by
    simp only [handle_message, hsess, hstate, hlim, h1, after_admission]
    simp [hstate]
  have hrecv : received_message s remote (.announcement ann) =
      { after_admission s remote peer with
        outbox := (after_admission s remote peer).outbox ++
          [.disconnect remote (.session .misbehavior)] } := by
    simp only [received_message, hmsg]
  refine ⟨by simp [h1], ?_, ?_⟩
  · rw [hrecv]
    exact ⟨rfl, rfl, rfl, rfl⟩
  · rw [hrecv]
    rfl

/-- A connected inbound session for node 1. -/
def sessW1 : Session := ⟨1, addr0, .inbound, false, .connected 0 .good, 0, none, [], 0⟩

def svcW1 : Service := { svcBase with sessions := [(1, sessW1)] }

/-- Witness for C1 on a concrete badly-signed inventory announcement. -/
theorem C1_bad_signature_disconnect_witness :
    (handle_announcement svcW1 1 sessW1.addr ⟨7, .inventory ⟨[], 1000⟩, false⟩).2 =
      .error .misbehavior ∧
    storesUnchanged svcW1
      (received_message svcW1 1 (.announcement ⟨7, .inventory ⟨[], 1000⟩, false⟩)) ∧
    (received_message svcW1 1 (.announcement ⟨7, .inventory ⟨[], 1000⟩, false⟩)).outbox =
      svcW1.outbox ++ [.disconnect 1 (.session .misbehavior)] :=
  C1_bad_signature_disconnect svcW1 1 sessW1 _ (by decide) (by decide) (by decide)
    (by decide)

/-- C3: when an accepted announcement is relayed, the written relay
targets all are sessions in the `Connected` state at relay time, and none
of them is the relayer (the peer the message came from) or the announcer
(the node that signed the announcement).  `hwf` is the sessions-map
invariant that each session is stored under its own node id. -/
theorem C3_relay_targets_connected (s : Service) (remote : Nat) (peer : Session)
    (ann : Announcement)
    (hsess : lookupA remote s.sessions = some peer)
    (hconn : peer.isConnected = true)
    (hlim : (s.limiter.limit peer.addr.host (rateLimitFor s.config peer.link) s.clock).2
      = false)
    (hid : peer.id = remote)
    (hwf : ∀ e ∈ (handle_announcement (after_admission s remote peer) peer.id peer.addr
        ann).1.sessions, e.2.id = e.1)
    (hrelay : (handle_announcement (after_admission s remote peer) peer.id peer.addr
        ann).2 = .ok true) :
    ∃ tgts : List (Nat × Session),
      (received_message s remote (.announcement ann)).outbox =
        (handle_announcement (after_admission s remote peer) peer.id peer.addr
          ann).1.outbox ++
          tgts.map (fun e => Action.writeMsg e.2.id (Message.announcement ann)) ∧
      ∀ e ∈ tgts,
        e ∈ (handle_announcement (after_admission s remote peer) peer.id peer.addr
          ann).1.sessions ∧
        e.2.isConnected = true ∧ ¬ e.2.id = remote ∧ ¬ e.2.id = ann.node := by
  obtain ⟨since, ping, hstate⟩ : ∃ a b, peer.state = SessionState.connected a b := by
    cases h : peer.state with
    | connected a b => exact ⟨a, b, rfl⟩
    | initial => simp [Session.isConnected, h] at hconn
    | attempted => simp [Session.isConnected, h] at hconn
    | disconnected a b => simp [Session.isConnected, h] at hconn
  have hADM : ∀ x : Service, x = after_admission s remote peer →
      handle_message s remote (.announcement ann) =
        (outboxRelay (handle_announcement x peer.id peer.addr ann).1 ann
          ((connectedPairs (handle_announcement x peer.id peer.addr ann).1).filter
            (fun e => ¬ e.1 = peer.id ∧ ¬ e.1 = ann.node)), .ok ()) := by
    intro x hx
    subst hx
    simp only [handle_message, hsess, hstate, hlim, after_admission]
    simp only [after_admission, hstate] at hrelay
    simp [hstate, hrelay]
  have hmsg := hADM _ rfl
  refine ⟨((connectedPairs (handle_announcement (after_admission s remote peer) peer.id
      peer.addr ann).1).filter
        (fun e => ¬ e.1 = peer.id ∧ ¬ e.1 = ann.node)).filter
        (fun e => match e.2.subscription with
          | some sub => subInterested sub ann
          | none => false), ?_, ?_⟩
  · simp only [received_message, hmsg]
    rfl
  · intro e he
    have he1 := List.mem_of_mem_filter he
    have hcp := List.mem_of_mem_filter he1
    have hpred := List.of_mem_filter he1
    have hconn2 := List.of_mem_filter hcp
    have hmem : e ∈ (handle_announcement (after_admission s remote peer) peer.id
        peer.addr ann).1.sessions := List.mem_of_mem_filter hcp
    have hprops : ¬ e.1 = peer.id ∧ ¬ e.1 = ann.node := of_decide_eq_true hpred
    have hide : e.2.id = e.1 := hwf e hmem
    refine ⟨hmem, hconn2, ?_, ?_⟩
    · rw [hide, ← hid]
      exact hprops.1
    · rw [hide]
      exact hprops.2

/-- A second connected session (node 2) subscribed to everything. -/
def sessW3 : Session :=
  ⟨2, addr0, .outbound, false, .connected 0 .good, 0, some ⟨⟨true, []⟩, 0, 0⟩, [], 0⟩

def svcW3 : Service := { svcBase with sessions := [(1, sessW1), (2, sessW3)] }

/-- A node announcement without the SEED feature: accepted and relayed
without touching the address book. -/
def annW3 : Announcement := ⟨7, .node ⟨⟨false⟩, 0, 0, 1000, [], [], 0⟩, true⟩

/-- Witness for C3 on a concrete relayed node announcement. -/
theorem C3_relay_targets_connected_witness :
    ∃ tgts : List (Nat × Session),
      (received_message svcW3 1 (.announcement annW3)).outbox =
        (handle_announcement (after_admission svcW3 1 sessW1) sessW1.id sessW1.addr
          annW3).1.outbox ++
          tgts.map (fun e => Action.writeMsg e.2.id (Message.announcement annW3)) ∧
      ∀ e ∈ tgts,
        e ∈ (handle_announcement (after_admission svcW3 1 sessW1) sessW1.id sessW1.addr
          annW3).1.sessions ∧
        e.2.isConnected = true ∧ ¬ e.2.id = 1 ∧ ¬ e.2.id = annW3.node :=
  C3_relay_targets_connected svcW3 1 sessW1 annW3 (by decide) (by decide) (by decide)
    (by decide) (by decide) (by decide)

/-! ## Preservation lemmas for the fetch pipeline (used by C4) -/

theorem lookupA_append_single {κ β : Type} [DecidableEq κ] (k k' : κ) (v : β)
    (l : List (κ × β)) (h : lookupA k l = none) :
    lookupA k (l ++ [(k', v)]) = if k = k' then some v else none := by
  induction l with
  | nil => simp [lookupA]
  | cons hd tl ih =>
    simp only [lookupA] at h
    by_cases hk : k = hd.1
    · simp [hk] at h
    · rw [if_neg hk] at h
      simpa [List.cons_append, lookupA, if_neg hk] using ih h

theorem try_fetch_delivered (s : Service) (rid origin : Nat) (refs_at : List RefsAt)
    (timeout : Nat) :
    (try_fetch s rid origin refs_at timeout).1.delivered = s.delivered := by
  unfold try_fetch
  split
  · rfl
  · split
    · split <;> rfl
    · split
      · rfl
      · split <;> rfl

theorem try_fetch_lookup_fetching (s : Service) (rid origin : Nat) (refs_at : List RefsAt)
    (timeout : Nat) (k : Nat) (h : lookupA k s.fetching = none) :
    lookupA k (try_fetch s rid origin refs_at timeout).1.fetching = none ∨
    ∃ o, lookupA k (try_fetch s rid origin refs_at timeout).1.fetching = some ⟨o, []⟩ := by
  unfold try_fetch
  split
  · exact Or.inl h
  · split
    · split
      · exact Or.inl h
      · exact Or.inl h
    · split
      · exact Or.inl h
      · split
        · exact Or.inl h
        · show lookupA k (s.fetching ++ [(rid, ⟨origin, []⟩)]) = none ∨ _
          rw [lookupA_append_single _ _ _ _ h]
          by_cases hk : k = rid
          · exact Or.inr ⟨origin, by rw [if_pos hk]⟩
          · exact Or.inl (by rw [if_neg hk])

theorem fetchInner_none_delivered (s : Service) (rid origin : Nat)
    (refs_at : List RefsAt) (timeout : Nat) :
    (fetchInner s rid origin refs_at timeout none).delivered = s.delivered := by
  unfold fetchInner
  dsimp only
  cases h : (try_fetch s rid origin refs_at timeout).2 <;>
    simp only [h] <;> exact try_fetch_delivered s rid origin refs_at timeout

theorem fetchInner_none_lookup_fetching (s : Service) (rid origin : Nat)
    (refs_at : List RefsAt) (timeout : Nat) (k : Nat)
    (hk : lookupA k s.fetching = none) :
    lookupA k (fetchInner s rid origin refs_at timeout none).fetching = none ∨
    ∃ o, lookupA k (fetchInner s rid origin refs_at timeout none).fetching = some ⟨o, []⟩ := by
  unfold fetchInner
  dsimp only
  cases h : (try_fetch s rid origin refs_at timeout).2 <;>
    simp only [h] <;> exact try_fetch_lookup_fetching s rid origin refs_at timeout k hk

theorem dequeue_fetch_delivered (s : Service) :
    (dequeue_fetch s).delivered = s.delivered := by
  unfold dequeue_fetch
  split
  · rfl
  · exact fetchInner_none_delivered _ _ _ _ _

theorem dequeue_fetch_lookup_fetching (s : Service) (k : Nat)
    (h : lookupA k s.fetching = none) :
    lookupA k (dequeue_fetch s).fetching = none ∨
    ∃ o, lookupA k (dequeue_fetch s).fetching = some ⟨o, []⟩ := by
  unfold dequeue_fetch
  split
  · exact Or.inl h
  · exact fetchInner_none_lookup_fetching _ _ _ _ _ k h

theorem announce_refs_delivered (s : Service) (rid : Nat) (remotes : List Nat) :
    (announce_refs s rid remotes).1.delivered = s.delivered := by
  unfold announce_refs outboxAnnounce
  split
  · rfl
  · split
    · rfl
    · split <;> rfl

theorem announce_refs_fetching (s : Service) (rid : Nat) (remotes : List Nat) :
    (announce_refs s rid remotes).1.fetching = s.fetching := by
  unfold announce_refs outboxAnnounce
  split
  · rfl
  · split
    · rfl
    · split <;> rfl

theorem foldl_syncStep1_proj (origin : Nat) (l : List (Nat × InsertResult)) :
    ∀ acc : Service × SyncedRouting,
      (l.foldl (syncStep1 origin) acc).1.delivered = acc.1.delivered ∧
      (l.foldl (syncStep1 origin) acc).1.fetching = acc.1.fetching := by
  induction l with
  | nil => exact fun acc => ⟨rfl, rfl⟩
  | cons hd tl ih =>
    intro acc
    have hstep : (syncStep1 origin acc hd).1.delivered = acc.1.delivered ∧
        (syncStep1 origin acc hd).1.fetching = acc.1.fetching := by
      unfold syncStep1
      split <;> exact ⟨rfl, rfl⟩
    obtain ⟨d, f⟩ := ih (syncStep1 origin acc hd)
    rw [List.foldl_cons]
    exact ⟨d.trans hstep.1, f.trans hstep.2⟩

theorem foldl_syncStep2_proj (inventory : List Nat) (origin : Nat) (l : List Nat) :
    ∀ acc : Service × SyncedRouting,
      (l.foldl (syncStep2 inventory origin) acc).1.delivered = acc.1.delivered ∧
      (l.foldl (syncStep2 inventory origin) acc).1.fetching = acc.1.fetching := by
  induction l with
  | nil => exact fun acc => ⟨rfl, rfl⟩
  | cons hd tl ih =>
    intro acc
    have hstep : (syncStep2 inventory origin acc hd).1.delivered = acc.1.delivered ∧
        (syncStep2 inventory origin acc hd).1.fetching = acc.1.fetching := by
      unfold syncStep2
      split
      · exact ⟨rfl, rfl⟩
      · dsimp only
        split <;> exact ⟨rfl, rfl⟩
    obtain ⟨d, f⟩ := ih (syncStep2 inventory origin acc hd)
    rw [List.foldl_cons]
    exact ⟨d.trans hstep.1, f.trans hstep.2⟩

theorem sync_routing_proj (s : Service) (inv : List Nat) (origin t : Nat)
    (s' : Service) (sy : SyncedRouting)
    (h : sync_routing s inv origin t = .ok (s', sy)) :
    s'.delivered = s.delivered ∧ s'.fetching = s.fetching := by
  rcases hins : s.routing.insert inv origin t with e | pr
  · simp [sync_routing, hins] at h
  · obtain ⟨r, results⟩ := pr
    simp only [sync_routing, hins] at h
    injection h with h2
    have hfst : s' = _ := congrArg Prod.fst h2.symm
    obtain ⟨d2, f2⟩ := foldl_syncStep2_proj inv origin
      ((results.foldl (syncStep1 origin)
        ({ s with routing := r }, ⟨[], [], []⟩)).1.routing.get_resources origin)
      (results.foldl (syncStep1 origin) ({ s with routing := r }, ⟨[], [], []⟩))
    obtain ⟨d1, f1⟩ := foldl_syncStep1_proj origin results
      ({ s with routing := r }, ⟨[], [], []⟩)
    constructor
    · rw [hfst]
      exact d2.trans d1
    · rw [hfst]
      exact f2.trans f1

theorem sync_and_announce_proj (s : Service) :
    (sync_and_announce s).delivered = s.delivered ∧
    (sync_and_announce s).fetching = s.fetching := by
  unfold sync_and_announce
  rcases h : sync_routing s s.storage.inventory s.nid s.clock with e | ⟨s1, sy⟩
  · simp [h]
  · simp only [h]
    have hp := sync_routing_proj s _ _ _ s1 sy h
    split
    · exact ⟨hp.1, hp.2⟩
    · exact ⟨hp.1, hp.2⟩

theorem fetched_tail_delivered (s : Service) :
    (dequeue_fetch (sync_and_announce s)).delivered = s.delivered := by
  rw [dequeue_fetch_delivered, (sync_and_announce_proj s).1]

theorem fetched_tail_fetching (s : Service) (k : Nat)
    (h : lookupA k s.fetching = none) :
    ∀ fs', lookupA k (dequeue_fetch (sync_and_announce s)).fetching = some fs' →
      fs'.subscribers = [] := by
  intro fs' hfs'
  have h2 : lookupA k (sync_and_announce s).fetching = none := by
    rw [(sync_and_announce_proj s).2]
    exact h
  rcases dequeue_fetch_lookup_fetching _ k h2 with hn | ⟨o, ho⟩
  · rw [hn] at hfs'
    cases hfs'
  · rw [ho] at hfs'
    cases hfs'
    rfl

theorem fetchedAnnounce_proj (s : Service) (rid : Nat) (subs : List Nat)
    (result : FetchResult) :
    (fetchedAnnounce s rid subs result).delivered = s.delivered ∧
    (fetchedAnnounce s rid subs result).fetching = s.fetching := by
  unfold fetchedAnnounce
  split
  · split
    · split
      · exact ⟨rfl, rfl⟩
      · exact ⟨announce_refs_delivered _ _ _, announce_refs_fetching _ _ _⟩
    · exact ⟨rfl, rfl⟩
  · exact ⟨rfl, rfl⟩

theorem connect_proj (s : Service) (nid : Nat) (addr : Address) :
    (connect s nid addr).1.delivered = s.delivered ∧
    (connect s nid addr).1.fetching = s.fetching := by
  unfold connect
  split
  · exact ⟨rfl, rfl⟩
  · split
    · exact ⟨rfl, rfl⟩
    · exact ⟨rfl, rfl⟩

theorem foldl_connect_proj (l : List (Nat × KnownAddress)) :
    ∀ s : Service,
      (l.foldl (fun st pr => (connect st pr.1 pr.2.addr).1) s).delivered = s.delivered ∧
      (l.foldl (fun st pr => (connect st pr.1 pr.2.addr).1) s).fetching = s.fetching := by
  induction l with
  | nil => exact fun s => ⟨rfl, rfl⟩
  | cons hd tl ih =>
    intro s
    obtain ⟨d, f⟩ := ih ((connect s hd.1 hd.2.addr).1)
    rw [List.foldl_cons]
    exact ⟨d.trans (connect_proj s hd.1 hd.2.addr).1,
      f.trans (connect_proj s hd.1 hd.2.addr).2⟩

theorem maintain_connections_proj (s : Service) :
    (maintain_connections s).delivered = s.delivered ∧
    (maintain_connections s).fetching = s.fetching := by
  unfold maintain_connections
  split
  · exact ⟨rfl, rfl⟩
  · dsimp only
    split
    · exact ⟨rfl, rfl⟩
    · exact foldl_connect_proj _ s

theorem lookupA_updateA_ne {κ β : Type} [DecidableEq κ] (k k' : κ) (f : β → β)
    (l : List (κ × β)) (h : ¬ k = k') :
    lookupA k (updateA k' f l) = lookupA k l := by
  induction l with
  | nil => rfl
  | cons hd tl ih =>
    by_cases hk : k' = hd.1
    · have hne : ¬ k = hd.1 := fun he => h (he.trans hk.symm)
      simp only [updateA, if_pos hk, lookupA, if_neg hne]
    · simp only [updateA, if_neg hk, lookupA]
      by_cases hkh : k = hd.1
      · rw [if_pos hkh, if_pos hkh]
      · rw [if_neg hkh, if_neg hkh]
        exact ih

theorem eq_of_mem_nodup_keys {κ β : Type} [DecidableEq κ] (l : List (κ × β))
    (hnd : (l.map Prod.fst).Nodup) (e1 e2 : κ × β)
    (h1 : e1 ∈ l) (h2 : e2 ∈ l) (hk : e1.1 = e2.1) : e1 = e2 := by
  induction l with
  | nil => cases h1
  | cons hd tl ih =>
    simp only [List.map_cons, List.nodup_cons] at hnd
    rcases List.mem_cons.mp h1 with rfl | h1'
    · rcases List.mem_cons.mp h2 with rfl | h2'
      · rfl
      · exact absurd (hk ▸ List.mem_map_of_mem Prod.fst h2') hnd.1
    · rcases List.mem_cons.mp h2 with rfl | h2'
      · exact absurd (hk ▸ List.mem_map_of_mem Prod.fst h1') hnd.1
      · exact ih hnd.2 h1' h2'

/-- Under unique keys, filtering out the entry at key `k` makes the lookup
of `k` fail. -/
theorem lookupA_filter_none {κ β : Type} [DecidableEq κ] (k : κ) (v : β)
    (p : κ × β → Bool) (l : List (κ × β))
    (hnd : (l.map Prod.fst).Nodup) (hmem : (k, v) ∈ l) (hp : p (k, v) = false) :
    lookupA k (l.filter p) = none := by
  apply lookupA_eq_none_of_not_mem
  intro hk
  obtain ⟨e, he, hke⟩ := List.mem_map.mp hk
  obtain ⟨hel, hpe⟩ := List.mem_filter.mp he
  have heq : e = (k, v) := eq_of_mem_nodup_keys l hnd e (k, v) hel hmem hke
  rw [heq, hp] at hpe
  cases hpe

theorem try_fetch_session_state (s : Service) (rid origin : Nat) (refs_at : List RefsAt)
    (timeout : Nat) (k : Nat) :
    (lookupA k (try_fetch s rid origin refs_at timeout).1.sessions).map Session.state =
      (lookupA k s.sessions).map Session.state := by
  unfold try_fetch
  split
  · rfl
  · split
    · split <;> rfl
    · split
      · rfl
      · split
        · rfl
        · show (lookupA k (updateA origin _ s.sessions)).map Session.state = _
          by_cases hk : k = origin
          · subst hk
            rw [lookupA_updateA]
            cases lookupA k s.sessions <;> rfl
          · rw [lookupA_updateA_ne _ _ _ _ hk]

theorem fetchInner_none_session_state (s : Service) (rid origin : Nat)
    (refs_at : List RefsAt) (timeout : Nat) (k : Nat) :
    (lookupA k (fetchInner s rid origin refs_at timeout none).sessions).map Session.state =
      (lookupA k s.sessions).map Session.state := by
  unfold fetchInner
  dsimp only
  cases h : (try_fetch s rid origin refs_at timeout).2 <;>
    simp only [h] <;> exact try_fetch_session_state s rid origin refs_at timeout k

theorem dequeue_fetch_session_state (s : Service) (k : Nat) :
    (lookupA k (dequeue_fetch s).sessions).map Session.state =
      (lookupA k s.sessions).map Session.state := by
  unfold dequeue_fetch
  split
  · rfl
  · exact fetchInner_none_session_state _ _ _ _ _ k

/-- If `k`'s session has state `st` before `dequeue_fetch`, some session
with the same state is found for `k` afterwards (the dequeued dispatch only
takes fetch slots; it never changes a session's state). -/
theorem dequeue_session_state_some (t : Service) (k : Nat) (st : SessionState)
    (sess0 : Session)
    (h : lookupA k t.sessions = some sess0) (hst : sess0.state = st) :
    ∃ sess', lookupA k (dequeue_fetch t).sessions = some sess' ∧ sess'.state = st := by
  have hp := dequeue_fetch_session_state t k
  rw [h] at hp
  cases hq : lookupA k (dequeue_fetch t).sessions with
  | none => rw [hq] at hp; cases hp
  | some s' =>
    rw [hq] at hp
    refine ⟨s', rfl, ?_⟩
    injection hp with h2
    rw [h2, hst]

theorem try_fetch_outbox (s : Service) (rid origin : Nat) (refs_at : List RefsAt)
    (timeout : Nat) :
    ∃ extra, (try_fetch s rid origin refs_at timeout).1.outbox = s.outbox ++ extra := by
  unfold try_fetch
  split
  · exact ⟨[], by simp⟩
  · split
    · split
      · exact ⟨[], by simp⟩
      · exact ⟨[], by simp⟩
    · split
      · exact ⟨[], by simp⟩
      · split
        · exact ⟨[], by simp⟩
        · exact ⟨[.fetchFrom origin rid (s.policies.namespaces_for rid) refs_at timeout],
            rfl⟩

theorem fetchInner_none_outbox (s : Service) (rid origin : Nat)
    (refs_at : List RefsAt) (timeout : Nat) :
    ∃ extra, (fetchInner s rid origin refs_at timeout none).outbox = s.outbox ++ extra := by
  unfold fetchInner
  dsimp only
  cases h : (try_fetch s rid origin refs_at timeout).2 <;>
    simp only [h] <;> exact try_fetch_outbox s rid origin refs_at timeout

theorem dequeue_fetch_outbox (s : Service) :
    ∃ extra, (dequeue_fetch s).outbox = s.outbox ++ extra := by
  unfold dequeue_fetch
  split
  · exact ⟨[], by simp⟩
  · exact fetchInner_none_outbox _ _ _ _ _

/-- `dequeue_fetch` extends the outbox, so an action just queued stays. -/
theorem dequeue_outbox_cons (t : Service) (pre : List Action) (a : Action)
    (h : t.outbox = pre ++ [a]) :
    ∃ extra, (dequeue_fetch t).outbox = pre ++ a :: extra := by
  obtain ⟨e, he⟩ := dequeue_fetch_outbox t
  refine ⟨e, ?_⟩
  rw [he, h]
  simp

/-- A `FetchState` found after `dequeue_fetch` for a key that had none
before carries no subscribers. -/
theorem dequeue_subscribers_empty (t : Service) (k : Nat) (fs' : FetchState)
    (hsome : lookupA k (dequeue_fetch t).fetching = some fs')
    (hnone : lookupA k t.fetching = none) : fs'.subscribers = [] := by
  rcases dequeue_fetch_lookup_fetching t k hnone with hn | ⟨o, ho⟩
  · rw [hn] at hsome
    cases hsome
  · rw [ho] at hsome
    cases hsome
    rfl

/-- C4: every channel subscribed to a `FetchState` is delivered exactly
one `FetchResult`: the result derived from the worker outcome when
`fetched(rid, from, res)` resolves the fetch, or a `Failed` result when
the peer the fetch was dispatched to disconnects first; in both paths the
`FetchState` is removed (any state re-created for the rid by the queued
fetch dispatch carries no subscribers), so no second delivery can occur.
`hnd` is the key-uniqueness invariant of the fetch map. -/
theorem C4_exactly_once_delivery (s : Service) (rid remote : Nat) (fs : FetchState)
    (res : WorkerResult) (reason : DisconnectReason) (sess : Session)
    (hnd : (s.fetching.map Prod.fst).Nodup) :
    (lookupA rid s.fetching = some fs → fs.origin = remote →
      (fetched s rid remote res).delivered =
        s.delivered ++ fs.subscribers.map (fun c => (c, serviceResult res)) ∧
      (∀ fs', lookupA rid (fetched s rid remote res).fetching = some fs' →
        fs'.subscribers = [])) ∧
    (lookupA remote s.sessions = some sess →
      (disconnected s remote reason).delivered =
        s.delivered ++ (s.fetching.filter (fun e => e.2.origin = remote)).flatMap
          (fun e => e.2.subscribers.map
            (fun c => (c, FetchResult.failed .disconnected))) ∧
      (∀ k fs0, (k, fs0) ∈ s.fetching → fs0.origin = remote →
        ∀ fs', lookupA k (disconnected s remote reason).fetching = some fs' →
          fs'.subscribers = [])) := by
  constructor
  · intro hlook _horigin
    have herase : lookupA rid (eraseA rid s.fetching) = none := lookupA_eraseA _ _ hnd
    cases res with
    | ok okr =>
      constructor
      · simp only [fetched, emit, serviceResult, hlook]
        rw [fetched_tail_delivered, (fetchedAnnounce_proj _ _ _ _).1]
      · simp only [fetched, emit, serviceResult, hlook]
        apply fetched_tail_fetching
        rw [(fetchedAnnounce_proj _ _ _ _).2]
        exact herase
    | error e =>
      cases ht : e.timeout with
      | true =>
        constructor
        · simp only [fetched, emit, serviceResult, hlook, ht, if_true]
          rw [fetched_tail_delivered, (fetchedAnnounce_proj _ _ _ _).1]
        · simp only [fetched, emit, serviceResult, hlook, ht, if_true]
          apply fetched_tail_fetching
          rw [(fetchedAnnounce_proj _ _ _ _).2]
          exact herase
      | false =>
        constructor
        · simp only [fetched, emit, serviceResult, hlook, ht, Bool.false_eq_true,
            if_false]
          rw [fetched_tail_delivered, (fetchedAnnounce_proj _ _ _ _).1]
        · simp only [fetched, emit, serviceResult, hlook, ht, Bool.false_eq_true,
            if_false]
          apply fetched_tail_fetching
          rw [(fetchedAnnounce_proj _ _ _ _).2]
          exact herase
  · intro hsess2
    constructor
    · by_cases hp : (s.config.peer remote).isSome = true
      · simp only [disconnected, emit, hsess2, hp, if_true]
        rw [dequeue_fetch_delivered]
      · simp only [Bool.not_eq_true] at hp
        simp only [disconnected, emit, hsess2, hp, Bool.false_eq_true, if_false]
        rw [dequeue_fetch_delivered]
        split
        · rw [(maintain_connections_proj _).1]
        · rfl
    · intro k fs0 hmem horg fs' hfs'
      have hpk : (fun e => decide (¬ e.2.origin = remote)) (k, fs0) = false := by
        simp [horg]
      have hnone : lookupA k
          (s.fetching.filter (fun e => decide (¬ e.2.origin = remote))) = none :=
        lookupA_filter_none k fs0 _ _ hnd hmem hpk
      by_cases hp : (s.config.peer remote).isSome = true
      · simp only [disconnected, emit, hsess2, hp, if_true] at hfs'
        exact dequeue_subscribers_empty _ k fs' hfs' hnone
      · simp only [Bool.not_eq_true] at hp
        simp only [disconnected, emit, hsess2, hp, Bool.false_eq_true, if_false] at hfs'
        refine dequeue_subscribers_empty _ k fs' hfs' ?_
        split
        · rw [(maintain_connections_proj _).2]
          exact hnone
        · exact hnone

/-- Session used by the C4 witness: node 1, currently fetching repo 5. -/
def sessC4 : Session := ⟨1, addr0, .outbound, false, .connected 0 .good, 0, none, [5], 0⟩

def svcC4 : Service :=
  { svcBase with sessions := [(1, sessC4)], fetching := [(5, ⟨1, [9]⟩)] }

/-- Witness for C4: channel 9 gets exactly one result from `fetched`, and
exactly one `Failed` from `disconnected`; any fetch state still found for
the repo afterwards has no subscribers. -/
theorem C4_exactly_once_delivery_witness :
    (fetched svcC4 5 1 (.ok ⟨[], []⟩)).delivered =
      svcC4.delivered ++ [(9, serviceResult (.ok ⟨[], []⟩))] ∧
    (disconnected svcC4 1 .command).delivered =
      svcC4.delivered ++ [(9, FetchResult.failed .disconnected)] ∧
    (∀ fs', lookupA 5 (disconnected svcC4 1 .command).fetching = some fs' →
      fs'.subscribers = []) := by
  obtain ⟨ha, hb⟩ := C4_exactly_once_delivery svcC4 5 1 ⟨1, [9]⟩ (.ok ⟨[], []⟩) .command
    sessC4 (by decide)
  obtain ⟨ha1, _⟩ := ha (by decide) (by decide)
  obtain ⟨hb1, hb2⟩ := hb (by decide)
  exact ⟨ha1, hb1, hb2 5 ⟨1, [9]⟩ (by decide) (by decide)⟩

/-- C9: when a persistent peer with `a` connection attempts disconnects,
the scheduled reconnection delay equals `min(2^a s, MAX_RECONNECTION_DELTA)`
floored at `MIN_RECONNECTION_DELTA` (hence it lies in `[MIN, MAX]`, and
`a = 3` gives 8 s); the session transitions to `Disconnected` with
`retry_at = now + delay`, and the wakeup for the delay is queued right
after the previous outbox contents (followed only by whatever the trailing
fetch-dequeue step dispatches). -/
theorem C9_persistent_backoff (s : Service) (remote : Nat) (reason : DisconnectReason)
    (sess : Session)
    (hsess : lookupA remote s.sessions = some sess)
    (hpersistent : (s.config.peer remote).isSome = true) :
    reconnectDelay sess.attempts =
      max (min (2 ^ sess.attempts * 1000) MAX_RECONNECTION_DELTA) MIN_RECONNECTION_DELTA ∧
    MIN_RECONNECTION_DELTA ≤ reconnectDelay sess.attempts ∧
    reconnectDelay sess.attempts ≤ MAX_RECONNECTION_DELTA ∧
    reconnectDelay 3 = 8000 ∧
    (∃ sess', lookupA remote (disconnected s remote reason).sessions = some sess' ∧
      sess'.state =
        SessionState.disconnected s.clock (s.clock + reconnectDelay sess.attempts)) ∧
    (∃ extra, (disconnected s remote reason).outbox =
      s.outbox ++ Action.wakeup (reconnectDelay sess.attempts) :: extra) := by
  refine ⟨reconnectDelay_eq_min_floor _, (reconnectDelay_bounds _).1,
    (reconnectDelay_bounds _).2, by decide, ?_, ?_⟩
  · set_option maxRecDepth 4000 in
    simp only [disconnected, emit, hsess, hpersistent, if_true]
    refine dequeue_session_state_some _ remote _ { sess with state := SessionState.disconnected s.clock (s.clock + reconnectDelay sess.attempts) } ?_ rfl
    rw [lookupA_updateA, hsess]
    rfl
  · set_option maxRecDepth 4000 in
    simp only [disconnected, emit, hsess, hpersistent, if_true]
    exact dequeue_outbox_cons _ _ _ rfl

/-- Witness for C9 at a concrete persistent peer with three attempts. -/
theorem C9_persistent_backoff_witness :
    reconnectDelay 3 = 8000 ∧
    (∃ sess', lookupA 1 (disconnected svcW9 1 .command).sessions = some sess' ∧
      sess'.state = SessionState.disconnected 50000 58000) ∧
    (∃ extra, (disconnected svcW9 1 .command).outbox = Action.wakeup 8000 :: extra) := by
  obtain ⟨_, _, _, h4, h5, h6⟩ :=
    C9_persistent_backoff svcW9 1 .command sessW9 (by decide) (by decide)
  exact ⟨h4, h5, h6⟩

end Heartwood
